import Mathlib

/-!
Verification of the conversation-orchestration core of the mylittleprice
chat backend: the cycle state machine, the AI-response JSON
extraction/repair pipeline, the chat-turn orchestrator, and the
realtime fan-out layer.  Go code is shallowly embedded: pure Go
functions become Lean functions on `List Char` / records, stateful code
becomes explicit state passing, and external collaborators (stores,
the LLM, the search provider, clocks, randomness) become explicit
environment parameters.
-/

namespace Mylittleprice

/-! ## Cycle state machine (internal/services/prompt manager) -/

/-- `MaxIterations` constant from the universal prompt manager. -/
def MaxIterations : Nat := 6

/-- One `{role, content, timestamp}` entry of a cycle history
(`models.CycleMessage`); the wall-clock timestamp is threaded in as a
`Nat` tick supplied by the environment. -/
structure CycleMessage where
  role : String
  content : String
  timestamp : Nat
deriving Repr, DecidableEq

/-- A product name/price pair (`models.ProductInfo`); the Go `float64`
price is embedded as an exact rational. -/
structure ProductInfo where
  name : String
  price : Rat
deriving Repr, DecidableEq

/-- Carried-over context of a finished cycle (`models.LastCycleContext`). -/
structure LastCycleContextS where
  groups : List String
  subgroups : List String
  products : List ProductInfo
  lastRequest : String
deriving Repr, DecidableEq

/-- `models.CycleState`: the per-session iteration/cycle bookkeeping. -/
structure CycleState where
  cycleID : Nat
  iteration : Nat
  cycleHistory : List CycleMessage
  lastCycleContext : Option LastCycleContextS
  lastDefined : List String
  promptID : String
  promptHash : String
deriving Repr, DecidableEq

/-- `extractGroups` from the prompt manager: the accumulation map is
never populated in the source, so the result is always empty. -/
def extractGroups (_history : List CycleMessage) : List String := []

/-- `extractSubgroups` from the prompt manager: likewise always empty. -/
def extractSubgroups (_history : List CycleMessage) : List String := []

/-- `UniversalPromptManager.IncrementIteration`: checks the bound
before incrementing; returns the updated state and `true` to continue
in the same cycle, or the unchanged state and `false` to request a new
cycle. -/
def incrementIteration (cs : CycleState) : CycleState × Bool :=
  if cs.iteration ≥ MaxIterations then
    (cs, false)
  else
    ({ cs with iteration := cs.iteration + 1 }, true)

/-- `UniversalPromptManager.StartNewCycle`: snapshots the outgoing
cycle into `lastCycleContext`, bumps `cycleID`, resets `iteration`,
clears `cycleHistory`. -/
def startNewCycle (cs : CycleState) (lastRequest : String)
    (products : List ProductInfo) : CycleState :=
  { cs with
    cycleID := cs.cycleID + 1
    iteration := 1
    cycleHistory := []
    lastCycleContext := some
      { groups := extractGroups cs.cycleHistory
        subgroups := extractSubgroups cs.cycleHistory
        products := products
        lastRequest := lastRequest } }

/-- `UniversalPromptManager.AddToCycleHistory`: appends one message. -/
def addToCycleHistory (cs : CycleState) (role content : String)
    (now : Nat) : CycleState :=
  { cs with cycleHistory :=
      cs.cycleHistory ++ [{ role := role, content := content, timestamp := now }] }

/-- `UniversalPromptManager.InitializeCycleState` (prompt identity
fields abstracted to the given hash). -/
def initializeCycleState (promptHash : String) : CycleState :=
  { cycleID := 1
    iteration := 1
    cycleHistory := []
    lastCycleContext := none
    lastDefined := []
    promptID := "UniversalPrompt v1.0.1"
    promptHash := promptHash }

/-- C1. Cycle rotation boundary: below `MaxIterations` (6),
`IncrementIteration` bumps the iteration by exactly one and signals
"continue same cycle"; at or above the bound it signals "rotate"
leaving the iteration unchanged; `StartNewCycle` then increments
`cycle_id` by exactly one, resets the iteration to 1 and clears the
cycle history. -/
theorem cycle_rotation_boundary (cs : CycleState) (lastRequest : String)
    (products : List ProductInfo) :
    (cs.iteration < 6 →
      (incrementIteration cs).2 = true ∧
      (incrementIteration cs).1.iteration = cs.iteration + 1) ∧
    (cs.iteration ≥ 6 →
      (incrementIteration cs).2 = false ∧
      (incrementIteration cs).1.iteration = cs.iteration) ∧
    ((startNewCycle cs lastRequest products).cycleID = cs.cycleID + 1 ∧
      (startNewCycle cs lastRequest products).iteration = 1 ∧
      (startNewCycle cs lastRequest products).cycleHistory = []) := by
  refine ⟨fun h => ?_, fun h => ?_, rfl, rfl, rfl⟩
  · have hlt : ¬ cs.iteration ≥ MaxIterations := by
      simp only [MaxIterations]; omega
    simp [incrementIteration, hlt]
  · simp [incrementIteration, MaxIterations, h]

/-- Witness for C1 at a concrete boundary state: six iterations in,
the machine signals rotation without mutating, and rotation resets as
claimed. -/
theorem cycle_rotation_boundary_witness :
    ((incrementIteration (initializeCycleState "h")).2 = true ∧
      (incrementIteration (initializeCycleState "h")).1.iteration = 2) ∧
    ((incrementIteration { initializeCycleState "h" with iteration := 6 }).2 = false ∧
      (incrementIteration { initializeCycleState "h" with iteration := 6 }).1.iteration = 6) ∧
    (startNewCycle { initializeCycleState "h" with iteration := 6 } "req" []).cycleID = 2 := by
  refine ⟨?_, ?_, ?_⟩
  · exact (cycle_rotation_boundary (initializeCycleState "h") "req" []).1 (by decide)
  · have h := (cycle_rotation_boundary
      { initializeCycleState "h" with iteration := 6 } "req" []).2.1 (by decide)
    exact ⟨h.1, h.2⟩
  · exact (cycle_rotation_boundary
      { initializeCycleState "h" with iteration := 6 } "req" []).2.2.1

/-! ## JSON extraction from grounded model output
(`GeminiService.extractJSONFromText`, gemini.go).  Raw text is
embedded as `List Char`; the characters the scanner tests for are all
ASCII, so the byte-wise Go loop and the character-wise embedding
agree. -/

/-- Whitespace trimmed by Go `strings.TrimSpace` (the ASCII space
classes plus the two Latin-1 spaces; wider Unicode space code points
are outside the embedded alphabet). -/
def isGoSpace (c : Char) : Bool :=
  c = ' ' || c = '\t' || c = '\n' || c = '\x0b' || c = '\x0c' || c = '\r' ||
    c = '\u0085' || c = ' '

/-- `strings.TrimSpace`. -/
def trimSpace (s : List Char) : List Char :=
  ((s.dropWhile isGoSpace).reverse.dropWhile isGoSpace).reverse

/-- `strings.Index` specialised to a single character. -/
def indexOfChar (c : Char) : List Char → Option Nat
  | [] => none
  | x :: xs => if x = c then some 0 else (indexOfChar c xs).map (· + 1)

/-- `strings.Index` for a substring pattern. -/
def findSub (pat : List Char) : List Char → Option Nat
  | [] => if pat.isPrefixOf [] then some 0 else none
  | c :: rest =>
    if pat.isPrefixOf (c :: rest) then some 0
    else (findSub pat rest).map (· + 1)

/-- The scan loop of `extractJSONFromText`: a brace-depth counter that
ignores braces inside string literals (an in-string flag toggled on
unescaped double quotes, with escaped characters skipped); returns the
position of the `}` that closes the first balanced object, if any. -/
def extractScan : Int → Bool → Bool → Nat → List Char → Option Nat
  | _, _, _, _, [] => none
  | braceCount, inString, escapeNext, pos, c :: rest =>
    if escapeNext then extractScan braceCount inString false (pos + 1) rest
    else if c = '\\' then extractScan braceCount inString true (pos + 1) rest
    else if c = '"' then extractScan braceCount (!inString) false (pos + 1) rest
    else if inString then extractScan braceCount inString false (pos + 1) rest
    else if c = '{' then extractScan (braceCount + 1) inString false (pos + 1) rest
    else if c = '}' then
      if braceCount - 1 = 0 then some pos
      else extractScan (braceCount - 1) inString false (pos + 1) rest
    else extractScan braceCount inString false (pos + 1) rest

/-- The seven characters of the fenced-code opener searched for by the
fallback branch (three backticks then the word json). -/
def codeBlockPat : List Char :=
  [Char.ofNat 96, Char.ofNat 96, Char.ofNat 96, 'j', 's', 'o', 'n']

/-- A closing code fence: three backticks. -/
def codeFenceEnd : List Char := [Char.ofNat 96, Char.ofNat 96, Char.ofNat 96]

/-- `GeminiService.extractJSONFromText`: trim, locate the first `{`,
scan for the matching close of the first balanced object and return
exactly that span; if the object never balances, fall back to a fenced
json code block, else return the trimmed text. -/
def extractJSONFromText (text : List Char) : List Char :=
  let t := trimSpace text
  match indexOfChar '{' t with
  | none => t
  | some firstBraceIdx =>
    let sub := t.drop firstBraceIdx
    match extractScan 0 false false 0 sub with
    | some endPos => sub.take (endPos + 1)
    | none =>
      match findSub codeBlockPat t with
      | some start =>
        let after := t.drop (start + 7)
        match findSub codeFenceEnd after with
        | some endIdx => trimSpace (after.take endIdx)
        | none => t
      | none => t

/-! ### A grammar of serialized JSON values

`extractJSONFromText` is claimed correct on concatenations of valid
JSON objects.  "Valid JSON object" is formalised as the rendering of
an abstract JSON value: strings are token lists (ordinary characters,
which may not be a quote or a backslash, and backslash escape pairs),
and scalars are non-empty literal chunks over the JSON literal
alphabet. -/

/-- One token of a JSON string body: an ordinary character or an
escape pair. -/
inductive JStrTok where
  | ordc (c : Char)
  | escc (c : Char)
deriving Repr, DecidableEq

/-- Characters contributed to the text by one string token. -/
def renderTok : JStrTok → List Char
  | .ordc c => [c]
  | .escc c => ['\\', c]

/-- Well-formed token: an ordinary character is neither a quote nor a
backslash (those must be escaped in a JSON string). -/
def wfTok : JStrTok → Bool
  | .ordc c => !(c = '"' || c = '\\')
  | .escc _ => true

/-- A rendered string literal: quote, body tokens, quote. -/
def renderStrLit (ts : List JStrTok) : List Char :=
  '"' :: (ts.map renderTok).flatten ++ ['"']

/-- Alphabet of unquoted JSON scalars (numbers, true/false/null). -/
def litChar (c : Char) : Bool :=
  c.isAlphanum || c = '-' || c = '+' || c = '.'

mutual
inductive JVal where
  | jstr (ts : List JStrTok)
  | jlit (s : List Char)
  | jarr (items : JItems)
  | jobj (mems : JMems)

inductive JItems where
  | inil
  | icons (v : JVal) (rest : JItems)

inductive JMems where
  | mnil
  | mcons (key : List JStrTok) (v : JVal) (rest : JMems)
end

mutual

/-- Serialize a JSON value. -/
def renderVal : JVal → List Char
  | .jstr ts => renderStrLit ts
  | .jlit s => s
  | .jarr items => '[' :: (renderItems items ++ [']'])
  | .jobj mems => '{' :: (renderMems mems ++ ['}'])

/-- Serialize comma-separated array items. -/
def renderItems : JItems → List Char
  | .inil => []
  | .icons v .inil => renderVal v
  | .icons v (.icons w rest) => renderVal v ++ ',' :: renderItems (.icons w rest)

/-- Serialize comma-separated `key: value` object members. -/
def renderMems : JMems → List Char
  | .mnil => []
  | .mcons k v .mnil => renderStrLit k ++ ':' :: renderVal v
  | .mcons k v (.mcons k2 v2 rest) =>
    renderStrLit k ++ ':' :: renderVal v ++ ',' :: renderMems (.mcons k2 v2 rest)

end

mutual

/-- Well-formed JSON value. -/
def wfVal : JVal → Bool
  | .jstr ts => ts.all wfTok
  | .jlit s => !s.isEmpty && s.all litChar
  | .jarr items => wfItems items
  | .jobj mems => wfMems mems

/-- Well-formed item list. -/
def wfItems : JItems → Bool
  | .inil => true
  | .icons v rest => wfVal v && wfItems rest

/-- Well-formed member list. -/
def wfMems : JMems → Bool
  | .mnil => true
  | .mcons k v rest => k.all wfTok && wfVal v && wfMems rest

end

/-! ### Scanner step lemmas -/

/-- Inside a string, an ordinary character is skipped. -/
theorem extractScan_inString_other (bc : Int) (pos : Nat) (c : Char)
    (rest : List Char) (h1 : c ≠ '\\') (h2 : c ≠ '"') :
    extractScan bc true false pos (c :: rest)
      = extractScan bc true false (pos + 1) rest := by
  simp [extractScan, h1, h2]

/-- Outside a string, a character that is not a backslash, quote or
brace is skipped. -/
theorem extractScan_other (bc : Int) (pos : Nat) (c : Char)
    (rest : List Char) (h1 : c ≠ '\\') (h2 : c ≠ '"') (h3 : c ≠ '{')
    (h4 : c ≠ '}') :
    extractScan bc false false pos (c :: rest)
      = extractScan bc false false (pos + 1) rest := by
  simp [extractScan, h1, h2, h3, h4]

/-- A backslash escapes the following character in either mode. -/
theorem extractScan_escape (bc : Int) (inS : Bool) (pos : Nat) (c : Char)
    (rest : List Char) :
    extractScan bc inS false pos ('\\' :: c :: rest)
      = extractScan bc inS false (pos + 2) rest := by
  have h2 : pos + 1 + 1 = pos + 2 := by omega
  simp [extractScan, h2]

/-- An unescaped quote toggles the in-string flag. -/
theorem extractScan_quote (bc : Int) (inS : Bool) (pos : Nat)
    (rest : List Char) :
    extractScan bc inS false pos ('"' :: rest)
      = extractScan bc (!inS) false (pos + 1) rest := by
  simp [extractScan]

/-- An opening brace outside a string increments the depth. -/
theorem extractScan_open (bc : Int) (pos : Nat) (rest : List Char) :
    extractScan bc false false pos ('{' :: rest)
      = extractScan (bc + 1) false false (pos + 1) rest := by
  simp [extractScan]

/-- A closing brace outside a string at depth at least two decrements
the depth and continues. -/
theorem extractScan_close_continue (bc : Int) (pos : Nat)
    (rest : List Char) (h : 2 ≤ bc) :
    extractScan bc false false pos ('}' :: rest)
      = extractScan (bc - 1) false false (pos + 1) rest := by
  have hne : ¬ (bc - 1 = 0) := by omega
  simp [extractScan, hne]

/-- A closing brace outside a string at depth one returns its
position: the first balanced object ends here. -/
theorem extractScan_close_done (pos : Nat) (rest : List Char) :
    extractScan 1 false false pos ('}' :: rest) = some pos := by
  simp [extractScan]

/-! ### The scanner is transparent to rendered JSON values -/

/-- Scanning one well-formed string token inside a string advances the
position and preserves the state. -/
theorem extractScan_renderTok (t : JStrTok) (h : wfTok t = true)
    (bc : Int) (pos : Nat) (rest : List Char) :
    extractScan bc true false pos (renderTok t ++ rest)
      = extractScan bc true false (pos + (renderTok t).length) rest := by
  cases t with
  | ordc c =>
    simp only [wfTok, Bool.not_eq_true', Bool.or_eq_false_iff,
      decide_eq_false_iff_not] at h
    simpa [renderTok] using extractScan_inString_other bc pos c rest h.2 h.1
  | escc c =>
    simpa [renderTok] using extractScan_escape bc true pos c rest

/-- Scanning a well-formed string body inside a string is transparent. -/
theorem extractScan_renderToks (ts : List JStrTok)
    (h : ts.all wfTok = true) (bc : Int) (pos : Nat) (rest : List Char) :
    extractScan bc true false pos ((ts.map renderTok).flatten ++ rest)
      = extractScan bc true false (pos + ((ts.map renderTok).flatten).length) rest := by
  induction ts generalizing pos with
  | nil => simp
  | cons t ts ih =>
    simp only [List.all_cons, Bool.and_eq_true] at h
    simp only [List.map_cons, List.flatten_cons, List.append_assoc]
    rw [extractScan_renderTok t h.1 bc pos, ih h.2]
    congr 1
    simp [List.length_append]
    omega

/-- Scanning a whole well-formed string literal outside a string is
transparent: the opening quote enters string mode, the body is
skipped, the closing quote leaves string mode. -/
theorem extractScan_renderStrLit (ts : List JStrTok)
    (h : ts.all wfTok = true) (bc : Int) (pos : Nat) (rest : List Char) :
    extractScan bc false false pos (renderStrLit ts ++ rest)
      = extractScan bc false false (pos + (renderStrLit ts).length) rest := by
  simp only [renderStrLit, List.cons_append, List.append_assoc]
  rw [extractScan_quote bc false pos]
  simp only [Bool.not_false]
  rw [extractScan_renderToks ts h bc (pos + 1)]
  simp only [List.nil_append]
  rw [extractScan_quote]
  simp only [Bool.not_true]
  congr 1
  simp [List.length_append]
  omega

/-- A literal-alphabet character is none of the scanner's special
characters. -/
theorem litChar_ne (c : Char) (h : litChar c = true) :
    c ≠ '\\' ∧ c ≠ '"' ∧ c ≠ '{' ∧ c ≠ '}' := by
  refine ⟨?_, ?_, ?_, ?_⟩ <;> (intro hc; subst hc; simp [litChar] at h)

/-- Scanning a literal chunk outside a string is transparent. -/
theorem extractScan_lit (s : List Char) (h : s.all litChar = true)
    (bc : Int) (pos : Nat) (rest : List Char) :
    extractScan bc false false pos (s ++ rest)
      = extractScan bc false false (pos + s.length) rest := by
  induction s generalizing pos with
  | nil => simp
  | cons c s ih =>
    simp only [List.all_cons, Bool.and_eq_true] at h
    obtain ⟨h1, h2, h3, h4⟩ := litChar_ne c h.1
    simp only [List.cons_append]
    rw [extractScan_other bc pos c _ h1 h2 h3 h4, ih h.2]
    congr 1
    simp
    omega

/-- Destructured well-formedness of a member list cons cell. -/
theorem wfMems_mcons_iff (k : List JStrTok) (v : JVal) (rest : JMems) :
    wfMems (.mcons k v rest) = true ↔
      (k.all wfTok = true ∧ wfVal v = true ∧ wfMems rest = true) := by
  rw [wfMems]
  simp [Bool.and_eq_true, and_assoc]

/-- Destructured well-formedness of an item list cons cell. -/
theorem wfItems_icons_iff (v : JVal) (rest : JItems) :
    wfItems (.icons v rest) = true ↔
      (wfVal v = true ∧ wfItems rest = true) := by
  rw [wfItems]
  simp [Bool.and_eq_true]

mutual

/-- Scanning a rendered well-formed JSON value outside a string at
depth at least one is transparent: the scanner neither returns nor
changes state inside the value. -/
theorem extractScan_renderVal : ∀ (v : JVal), wfVal v = true →
    ∀ (d : Int), 1 ≤ d → ∀ (pos : Nat) (rest : List Char),
    extractScan d false false pos (renderVal v ++ rest)
      = extractScan d false false (pos + (renderVal v).length) rest
  | .jstr ts, h, d, _, pos, rest => by
    rw [renderVal]
    exact extractScan_renderStrLit ts (by simpa [wfVal] using h) d pos rest
  | .jlit s, h, d, _, pos, rest => by
    rw [renderVal]
    refine extractScan_lit s ?_ d pos rest
    simp only [wfVal, Bool.and_eq_true] at h
    exact h.2
  | .jarr items, h, d, hd, pos, rest => by
    rw [renderVal]
    simp only [List.cons_append, List.append_assoc]
    rw [extractScan_other d pos '[' _ (by decide) (by decide) (by decide) (by decide)]
    rw [extractScan_renderItems items (by simpa [wfVal] using h) d hd (pos + 1)]
    simp only [List.nil_append]
    rw [extractScan_other d _ ']' _ (by decide) (by decide) (by decide) (by decide)]
    congr 1
    simp
    omega
  | .jobj mems, h, d, hd, pos, rest => by
    rw [renderVal]
    simp only [List.cons_append, List.append_assoc]
    rw [extractScan_open d pos]
    rw [extractScan_renderMems mems (by simpa [wfVal] using h) (d + 1) (by omega) (pos + 1)]
    simp only [List.nil_append]
    rw [extractScan_close_continue (d + 1) _ _ (by omega)]
    have hsub : d + 1 - 1 = d := by omega
    rw [hsub]
    congr 1
    simp
    omega

/-- Scanning rendered well-formed items is transparent. -/
theorem extractScan_renderItems : ∀ (items : JItems), wfItems items = true →
    ∀ (d : Int), 1 ≤ d → ∀ (pos : Nat) (rest : List Char),
    extractScan d false false pos (renderItems items ++ rest)
      = extractScan d false false (pos + (renderItems items).length) rest
  | .inil, _, d, _, pos, rest => by simp [renderItems]
  | .icons v .inil, h, d, hd, pos, rest => by
    rw [renderItems]
    exact extractScan_renderVal v ((wfItems_icons_iff v .inil).mp h).1 d hd pos rest
  | .icons v (.icons w irest), h, d, hd, pos, rest => by
    obtain ⟨hv, hrest⟩ := (wfItems_icons_iff v (.icons w irest)).mp h
    rw [renderItems]
    simp only [List.append_assoc, List.cons_append]
    rw [extractScan_renderVal v hv d hd pos]
    rw [extractScan_other d _ ',' _ (by decide) (by decide) (by decide) (by decide)]
    rw [extractScan_renderItems (.icons w irest) hrest d hd]
    congr 1
    simp
    omega

/-- Scanning rendered well-formed members is transparent. -/
theorem extractScan_renderMems : ∀ (mems : JMems), wfMems mems = true →
    ∀ (d : Int), 1 ≤ d → ∀ (pos : Nat) (rest : List Char),
    extractScan d false false pos (renderMems mems ++ rest)
      = extractScan d false false (pos + (renderMems mems).length) rest
  | .mnil, _, d, _, pos, rest => by simp [renderMems]
  | .mcons k v .mnil, h, d, hd, pos, rest => by
    obtain ⟨hk, hv, -⟩ := (wfMems_mcons_iff k v .mnil).mp h
    rw [renderMems]
    simp only [List.append_assoc, List.cons_append]
    rw [extractScan_renderStrLit k hk d pos]
    rw [extractScan_other d _ ':' _ (by decide) (by decide) (by decide) (by decide)]
    rw [extractScan_renderVal v hv d hd]
    congr 1
    simp
    omega
  | .mcons k v (.mcons k2 v2 mrest), h, d, hd, pos, rest => by
    obtain ⟨hk, hv, hrest⟩ := (wfMems_mcons_iff k v (.mcons k2 v2 mrest)).mp h
    rw [renderMems]
    simp only [List.append_assoc, List.cons_append]
    rw [extractScan_renderStrLit k hk d pos]
    rw [extractScan_other d _ ':' _ (by decide) (by decide) (by decide) (by decide)]
    rw [extractScan_renderVal v hv d hd]
    rw [extractScan_other d _ ',' _ (by decide) (by decide) (by decide) (by decide)]
    rw [extractScan_renderMems (.mcons k2 v2 mrest) hrest d hd]
    congr 1
    simp
    omega

end

/-- On a rendered well-formed object followed by anything, the scan
returns exactly at the object's closing brace. -/
theorem extractScan_jobj (mems : JMems) (h : wfMems mems = true)
    (rest : List Char) :
    extractScan 0 false false 0 (renderVal (.jobj mems) ++ rest)
      = some ((renderVal (.jobj mems)).length - 1) := by
  have hren : renderVal (.jobj mems) ++ rest
      = '{' :: (renderMems mems ++ ('}' :: rest)) := by
    simp [renderVal, List.append_assoc]
  rw [hren, extractScan_open 0 0]
  have h01 : (0 : Int) + 1 = 1 := by omega
  rw [h01]
  rw [extractScan_renderMems mems h 1 (by omega) 1 ('}' :: rest)]
  rw [extractScan_close_done]
  congr 1
  simp [renderVal]
  omega

/-- Trimming removes nothing when neither end is whitespace. -/
theorem trimSpace_eq_self (s : List Char)
    (h1 : ∀ c, s.head? = some c → isGoSpace c = false)
    (h2 : ∀ c, s.getLast? = some c → isGoSpace c = false) :
    trimSpace s = s := by
  unfold trimSpace
  have hd : s.dropWhile isGoSpace = s := by
    cases s with
    | nil => rfl
    | cons a t =>
      rw [List.dropWhile_cons]
      simp [h1 a rfl]
  rw [hd]
  have hr : s.reverse.dropWhile isGoSpace = s.reverse := by
    cases hrev : s.reverse with
    | nil => rfl
    | cons a t =>
      have ha : s.getLast? = some a := by
        rw [← List.head?_reverse, hrev]
        rfl
      rw [List.dropWhile_cons]
      simp [h2 a ha]
  rw [hr, List.reverse_reverse]

/-- C2. First-object JSON extraction: on the concatenation of two
serialized well-formed JSON objects A then B, the grounding-mode
extraction step returns exactly A — the string-aware brace-depth scan
stops at the first balanced object and everything after it is
discarded. -/
theorem extract_first_json_object (mA mB : JMems)
    (hA : wfMems mA = true) (hB : wfMems mB = true) :
    extractJSONFromText (renderVal (.jobj mA) ++ renderVal (.jobj mB))
      = renderVal (.jobj mA) := by
  have hshape : renderVal (.jobj mA) ++ renderVal (.jobj mB)
      = '{' :: ((renderMems mA ++ ['}']) ++ renderVal (.jobj mB)) := by
    rw [renderVal]
    simp
  have hBshape : renderVal (.jobj mB) = '{' :: (renderMems mB ++ ['}']) := by
    rw [renderVal]
  have hlast : (renderVal (.jobj mA) ++ renderVal (.jobj mB)).getLast?
      = some '}' := by
    rw [hBshape]
    rw [show renderVal (.jobj mA) ++ ('{' :: (renderMems mB ++ ['}']))
        = (renderVal (.jobj mA) ++ ('{' :: renderMems mB)) ++ ['}'] by simp]
    exact List.getLast?_concat _
  have htrim : trimSpace (renderVal (.jobj mA) ++ renderVal (.jobj mB))
      = renderVal (.jobj mA) ++ renderVal (.jobj mB) := by
    refine trimSpace_eq_self _ ?_ ?_
    · intro c hc
      rw [hshape] at hc
      simp only [List.head?_cons, Option.some_inj] at hc
      subst hc
      decide
    · intro c hc
      rw [hlast] at hc
      simp only [Option.some_inj] at hc
      subst hc
      decide
  have hidx : indexOfChar '{' (renderVal (.jobj mA) ++ renderVal (.jobj mB))
      = some 0 := by
    rw [hshape, indexOfChar]
    simp
  have hscan := extractScan_jobj mA hA (renderVal (.jobj mB))
  have hlen1 : 1 ≤ (renderVal (.jobj mA)).length := by
    rw [renderVal]
    simp
  unfold extractJSONFromText
  simp only [htrim, hidx, List.drop_zero, hscan]
  have hpos : (renderVal (.jobj mA)).length - 1 + 1
      = (renderVal (.jobj mA)).length := by omega
  rw [hpos, List.take_left]

/-- Witness for C2: extracting from the concatenation of the rendered
objects for `\x7b"a": 1\x7d` and `\x7b\x7d` returns exactly the first
rendering. -/
theorem extract_first_json_object_witness :
    wfMems (JMems.mcons [JStrTok.ordc 'a'] (JVal.jlit ['1']) JMems.mnil) = true ∧
    wfMems JMems.mnil = true ∧
    extractJSONFromText
        (renderVal (.jobj (.mcons [.ordc 'a'] (.jlit ['1']) .mnil))
          ++ renderVal (.jobj .mnil))
      = renderVal (.jobj (.mcons [.ordc 'a'] (.jlit ['1']) .mnil)) :=
  ⟨by decide, by decide,
    extract_first_json_object _ _ (by decide) (by decide)⟩

/-! ## Structural JSON repair (`attemptJSONRepair`, gemini.go) -/

/-- State of the bracket-counting loop of `attemptJSONRepair`: the
four counters plus the string/escape scan flags (the Go loop keeps the
flags in locals; they are exposed here so that lemmas can speak about
the scan state at the end of the text). -/
structure BracketCounts where
  openBraces : Nat
  closeBraces : Nat
  openBrackets : Nat
  closeBrackets : Nat
  inString : Bool
  escapeNext : Bool
deriving Repr, DecidableEq

/-- All-zero initial counting state. -/
def initCounts : BracketCounts :=
  { openBraces := 0, closeBraces := 0, openBrackets := 0,
    closeBrackets := 0, inString := false, escapeNext := false }

/-- The string-aware counting loop of `attemptJSONRepair`: counts
brackets and braces outside string literals, skipping escaped
characters and toggling the in-string flag on unescaped quotes. -/
def countBrackets : BracketCounts → List Char → BracketCounts
  | st, [] => st
  | st, c :: rest =>
    if st.escapeNext then countBrackets { st with escapeNext := false } rest
    else if c = '\\' then countBrackets { st with escapeNext := true } rest
    else if c = '"' then countBrackets { st with inString := !st.inString } rest
    else if st.inString then countBrackets st rest
    else if c = '{' then
      countBrackets { st with openBraces := st.openBraces + 1 } rest
    else if c = '}' then
      countBrackets { st with closeBraces := st.closeBraces + 1 } rest
    else if c = '[' then
      countBrackets { st with openBrackets := st.openBrackets + 1 } rest
    else if c = ']' then
      countBrackets { st with closeBrackets := st.closeBrackets + 1 } rest
    else countBrackets st rest

/-- The quote-counting loop of `attemptJSONRepair`: counts unescaped
double quotes. -/
def countQuotes : Bool → Nat → List Char → Nat
  | _, q, [] => q
  | esc, q, c :: rest =>
    if esc then countQuotes false q rest
    else if c = '\\' then countQuotes true q rest
    else if c = '"' then countQuotes false (q + 1) rest
    else countQuotes false q rest

/-- `strings.LastIndex` specialised to a single character. -/
def lastIndexOfChar (c : Char) : List Char → Option Nat
  | [] => none
  | x :: xs =>
    match lastIndexOfChar c xs with
    | some i => some (i + 1)
    | none => if x = c then some 0 else none

/-- `attemptJSONRepair`: trim; count brackets/braces outside strings;
if balanced return as-is; otherwise truncate to the last comma when
square brackets are unbalanced, close an odd dangling quote, and
append the missing `]` and `}` counted on the pre-truncation text. -/
def attemptJSONRepair (text : List Char) : List Char :=
  let t := trimSpace text
  let st := countBrackets initCounts t
  if st.openBraces = st.closeBraces ∧ st.openBrackets = st.closeBrackets then
    t
  else
    let t2 :=
      if st.closeBrackets < st.openBrackets then
        match lastIndexOfChar ',' t with
        | some i => if 0 < i then t.take i else t
        | none => t
      else t
    let t3 := if countQuotes false 0 t2 % 2 ≠ 0 then t2 ++ ['"'] else t2
    t3 ++ List.replicate (st.openBrackets - st.closeBrackets) ']'
       ++ List.replicate (st.openBraces - st.closeBraces) '}'

/-- C3 counterexample.  Two concrete refutations of the claim as
stated: (1) on the balanced input consisting of a space, `\x7b`, `\x7d`
the function returns the trimmed text, not the text unchanged; (2) on
the bracket-unbalanced input `[`, `1`, comma, `\x7b` the comma-truncation
drops the open brace that was already counted, so the appended closers
leave the result with one `\x7d` too many — the output is not balanced. -/
theorem attemptJSONRepair_counterexample :
    attemptJSONRepair [' ', '{', '}'] = ['{', '}'] ∧
    attemptJSONRepair [' ', '{', '}'] ≠ [' ', '{', '}'] ∧
    attemptJSONRepair ['[', '1', ',', '{'] = ['[', '1', ']', '}'] ∧
    (countBrackets initCounts (attemptJSONRepair ['[', '1', ',', '{'])).openBraces = 0 ∧
    (countBrackets initCounts (attemptJSONRepair ['[', '1', ',', '{'])).closeBraces = 1 := by
  decide

/-- Counting distributes over append. -/
theorem countBrackets_append (a b : List Char) :
    ∀ st, countBrackets st (a ++ b) = countBrackets (countBrackets st a) b := by
  induction a with
  | nil => intro st; rfl
  | cons c rest ih =>
    intro st
    rw [List.cons_append, countBrackets, countBrackets]
    split
    · exact ih _
    · split
      · exact ih _
      · split
        · exact ih _
        · split
          · exact ih _
          · split
            · exact ih _
            · split
              · exact ih _
              · split
                · exact ih _
                · split
                  · exact ih _
                  · exact ih _

/-- Appending `k` closing braces from a clean scan state adds exactly
`k` to the close-brace counter and leaves everything else unchanged. -/
theorem countBrackets_replicate_close (k : Nat) :
    ∀ st, st.inString = false → st.escapeNext = false →
    countBrackets st (List.replicate k '}')
      = { st with closeBraces := st.closeBraces + k } := by
  induction k with
  | zero => intro st h1 h2; simp [countBrackets]
  | succ n ih =>
    intro st h1 h2
    rw [List.replicate_succ, countBrackets]
    simp only [h1, h2, Bool.false_eq_true, if_false, if_true,
      reduceCtorEq, if_neg (by decide : ¬('}' = '\\')),
      if_neg (by decide : ¬('}' = '"')), if_neg (by decide : ¬('}' = '{')),
      if_pos rfl]
    rw [ih _ (by simp [h1]) (by simp [h2])]
    simp
    omega

/-- Just the string/escape flag evolution of the counting scan. -/
def flagScan : Bool → Bool → List Char → Bool × Bool
  | inS, esc, [] => (inS, esc)
  | inS, esc, c :: rest =>
    if esc then flagScan inS false rest
    else if c = '\\' then flagScan inS true rest
    else if c = '"' then flagScan (!inS) false rest
    else flagScan inS false rest

/-- The bracket-counting scan's flags evolve exactly as `flagScan`. -/
theorem countBrackets_flags (t : List Char) :
    ∀ (a b c2 d : Nat) (inS esc : Bool),
    (countBrackets ⟨a, b, c2, d, inS, esc⟩ t).inString
        = (flagScan inS esc t).1 ∧
    (countBrackets ⟨a, b, c2, d, inS, esc⟩ t).escapeNext
        = (flagScan inS esc t).2 := by
  induction t with
  | nil => intro a b c2 d inS esc; exact ⟨rfl, rfl⟩
  | cons c rest ih =>
    intro a b c2 d inS esc
    rw [countBrackets, flagScan]
    cases esc with
    | true =>
      simp only [if_pos rfl]
      exact ih a b c2 d inS false
    | false =>
      simp only [Bool.false_eq_true, if_false]
      by_cases hbs : c = '\\'
      · simp only [hbs, if_pos rfl]
        exact ih a b c2 d inS true
      · simp only [if_neg hbs]
        by_cases hq : c = '"'
        · simp only [hq, if_pos rfl]
          exact ih a b c2 d (!inS) false
        · simp only [if_neg hq]
          cases inS with
          | true =>
            simp only [if_pos rfl]
            exact ih a b c2 d true false
          | false =>
            simp only [Bool.false_eq_true, if_false]
            split
            · exact ih (a + 1) b c2 d false false
            · split
              · exact ih a (b + 1) c2 d false false
              · split
                · exact ih a b (c2 + 1) d false false
                · split
                  · exact ih a b c2 (d + 1) false false
                  · exact ih a b c2 d false false

/-- The parity of the unescaped-quote count tracks the in-string flag
of the scan, provided the two loops start in agreeing states. -/
theorem countQuotes_parity (t : List Char) :
    ∀ (q : Nat) (inS esc : Bool), (inS = true ↔ q % 2 = 1) →
    ((flagScan inS esc t).1 = true ↔ countQuotes esc q t % 2 = 1) := by
  induction t with
  | nil => intro q inS esc h; rw [flagScan, countQuotes]; exact h
  | cons c rest ih =>
    intro q inS esc h
    rw [flagScan, countQuotes]
    cases esc with
    | true =>
      simp only [if_pos rfl]
      exact ih q inS false h
    | false =>
      simp only [Bool.false_eq_true, if_false]
      by_cases hbs : c = '\\'
      · simp only [hbs, if_pos rfl]
        exact ih q inS true h
      · simp only [if_neg hbs]
        by_cases hq : c = '"'
        · simp only [hq, if_pos rfl]
          refine ih (q + 1) (!inS) false ?_
          cases inS with
          | true =>
            have hodd := h.mp rfl
            simp only [Bool.not_true, Bool.false_eq_true, false_iff]
            omega
          | false =>
            have hnotodd : ¬ (q % 2 = 1) := fun hh => by
              have := h.mpr hh
              simp at this
            simp only [Bool.not_false, true_iff]
            omega
        · simp only [if_neg hq]
          exact ih q inS false h

/-- If the scan of a text from the clean initial state ends outside a
string, the text contains an even number of unescaped quotes. -/
theorem countQuotes_even (t : List Char)
    (h : (countBrackets initCounts t).inString = false) :
    countQuotes false 0 t % 2 = 0 := by
  have hflags := (countBrackets_flags t 0 0 0 0 false false).1
  have h' : (flagScan false false t).1 = false := by
    rw [← hflags]
    exact h
  have hpar := countQuotes_parity t 0 false false (by simp)
  rw [h'] at hpar
  simp only [Bool.false_eq_true, false_iff] at hpar
  omega

/-- C3 (amended). After whitespace trimming, if the string-aware
counts of brackets and braces are balanced the trimmed text is
returned unchanged; when square brackets are balanced but opening
braces exceed closing braces and the scan ends outside any string
with no dangling escape, no comma-truncation or quote-closing occurs
and exactly the missing closing braces are appended, producing a
bracket- and brace-balanced result. -/
theorem attemptJSONRepair_amended (t : List Char) :
    ((countBrackets initCounts (trimSpace t)).openBraces
        = (countBrackets initCounts (trimSpace t)).closeBraces ∧
     (countBrackets initCounts (trimSpace t)).openBrackets
        = (countBrackets initCounts (trimSpace t)).closeBrackets →
      attemptJSONRepair t = trimSpace t) ∧
    ((countBrackets initCounts (trimSpace t)).openBrackets
        = (countBrackets initCounts (trimSpace t)).closeBrackets →
     (countBrackets initCounts (trimSpace t)).closeBraces
        < (countBrackets initCounts (trimSpace t)).openBraces →
     (countBrackets initCounts (trimSpace t)).inString = false →
     (countBrackets initCounts (trimSpace t)).escapeNext = false →
      attemptJSONRepair t
          = trimSpace t ++ List.replicate
              ((countBrackets initCounts (trimSpace t)).openBraces
                - (countBrackets initCounts (trimSpace t)).closeBraces) '}' ∧
      (countBrackets initCounts (attemptJSONRepair t)).openBraces
          = (countBrackets initCounts (attemptJSONRepair t)).closeBraces ∧
      (countBrackets initCounts (attemptJSONRepair t)).openBrackets
          = (countBrackets initCounts (attemptJSONRepair t)).closeBrackets) := by
  constructor
  · intro hbal
    unfold attemptJSONRepair
    simp only [if_pos hbal]
  · intro hbk hbr hins hesc
    have hne : ¬ ((countBrackets initCounts (trimSpace t)).openBraces
        = (countBrackets initCounts (trimSpace t)).closeBraces ∧
      (countBrackets initCounts (trimSpace t)).openBrackets
        = (countBrackets initCounts (trimSpace t)).closeBrackets) := by
      intro hh
      omega
    have hnotlt : ¬ ((countBrackets initCounts (trimSpace t)).closeBrackets
        < (countBrackets initCounts (trimSpace t)).openBrackets) := by omega
    have hquotes : ¬ (countQuotes false 0 (trimSpace t) % 2 ≠ 0) := by
      have := countQuotes_even (trimSpace t) hins
      omega
    have hrep : attemptJSONRepair t
        = trimSpace t ++ List.replicate
            ((countBrackets initCounts (trimSpace t)).openBraces
              - (countBrackets initCounts (trimSpace t)).closeBraces) '}' := by
      unfold attemptJSONRepair
      simp only [if_neg hne, if_neg hnotlt, if_neg hquotes]
      have hz : (countBrackets initCounts (trimSpace t)).openBrackets
          - (countBrackets initCounts (trimSpace t)).closeBrackets = 0 := by omega
      rw [hz]
      simp
    refine ⟨hrep, ?_, ?_⟩ <;>
    · rw [hrep, countBrackets_append,
        countBrackets_replicate_close _ _ hins hesc]
      simp
      omega

/-- Witness for the amended C3: a balanced input is returned trimmed;
the input consisting of a single open brace gains exactly one closing
brace and ends balanced. -/
theorem attemptJSONRepair_amended_witness :
    attemptJSONRepair [' ', '{', '}'] = trimSpace [' ', '{', '}'] ∧
    attemptJSONRepair ['{']
      = trimSpace ['{'] ++ List.replicate
          ((countBrackets initCounts (trimSpace ['{'])).openBraces
            - (countBrackets initCounts (trimSpace ['{'])).closeBraces) '}' ∧
    (countBrackets initCounts (attemptJSONRepair ['{'])).openBraces
      = (countBrackets initCounts (attemptJSONRepair ['{'])).closeBraces := by
  refine ⟨(attemptJSONRepair_amended [' ', '{', '}']).1 (by decide), ?_, ?_⟩
  · exact ((attemptJSONRepair_amended ['{']).2 (by decide) (by decide)
      (by decide) (by decide)).1
  · exact ((attemptJSONRepair_amended ['{']).2 (by decide) (by decide)
      (by decide) (by decide)).2.1

/-! ## AI response model and response_type inference
(`GeminiService.ProcessWithUniversalPrompt`, gemini.go, success path
after JSON decoding). -/

/-- A decoded raw JSON field value, as seen through Go's
`map[string]interface\x7b\x7d`: a string, a nested object, or anything
else (numbers, arrays, booleans, null), which the probe chain never
matches. -/
inductive RawVal where
  | rstr (s : String)
  | robj (fields : List (String × RawVal))
  | rother
deriving Repr

/-- Field lookup in a decoded JSON object. -/
def lookupRaw : List (String × RawVal) → String → Option RawVal
  | [], _ => none
  | (k, v) :: rest, key => if k = key then some v else lookupRaw rest key

/-- The Go pattern `v, ok := raw[key].(string); ok && v != ""`. -/
def isNonEmptyStr : Option RawVal → Option String
  | some (.rstr s) => if s = "" then none else some s
  | _ => none

/-- The Go pattern `v, ok := raw[key].(map[string]interface\x7b\x7d)`. -/
def asObj : Option RawVal → Option (List (String × RawVal))
  | some (.robj fields) => some fields
  | _ => none

/-- `models.GeminiResponse`: the typed decode target of the AI reply.
Prices are exact rationals; `params` is a decoded JSON object. -/
structure GeminiResponseS where
  responseType : String := ""
  output : String := ""
  quickReplies : Option (List String) := none
  searchPhrase : String := ""
  searchType : String := ""
  category : String := ""
  priceFilter : String := ""
  minPrice : Option Rat := none
  maxPrice : Option Rat := none
  productType : String := ""
  brand : String := ""
  requiresInput : Bool := false
  productDescription : String := ""
  api : String := ""
  params : Option (List (String × RawVal)) := none
deriving Repr

/-- The known-model-mistake probe chain of the empty-`response_type`
recovery block: an if/else-if cascade over the raw decoded object.
The first probe whose guard holds wins; a `response` field that is an
object captures the fourth branch even when it has no usable
`query_refinement`. -/
def probeChain (resp : GeminiResponseS)
    (rawJSON : List (String × RawVal)) : GeminiResponseS :=
  match isNonEmptyStr (lookupRaw rawJSON "response") with
  | some s => { resp with output := s, responseType := "dialogue" }
  | none =>
    match isNonEmptyStr (lookupRaw rawJSON "query") with
    | some s => { resp with output := s, responseType := "dialogue" }
    | none =>
      match isNonEmptyStr (lookupRaw rawJSON "prompt_text") with
      | some s => { resp with output := s, responseType := "dialogue" }
      | none =>
        match asObj (lookupRaw rawJSON "response") with
        | some fields =>
          match isNonEmptyStr (lookupRaw fields "query_refinement") with
          | some s => { resp with output := s, responseType := "dialogue" }
          | none => resp
        | none =>
          match isNonEmptyStr (lookupRaw rawJSON "ASSISTANT_RESPONSE") with
          | some s => { resp with output := s, responseType := "dialogue" }
          | none => resp

/-- The category recovery that follows the probe chain. -/
def extractCategory (resp : GeminiResponseS)
    (rawJSON : List (String × RawVal)) : GeminiResponseS :=
  if resp.category = "" then
    match isNonEmptyStr (lookupRaw rawJSON "category") with
    | some c => { resp with category := c }
    | none =>
      match isNonEmptyStr (lookupRaw rawJSON "query_category") with
      | some c => { resp with category := c }
      | none =>
        match isNonEmptyStr (lookupRaw rawJSON "CURRENT_CATEGORY") with
        | some c => { resp with category := c }
        | none => resp
  else resp

/-- Field-based inference of `response_type` (the body of the
recovery block): dialogue from `output`/`quick_replies`, search from
`search_phrase`, api_request from `api`/`params`, else the probe chain
and category recovery over the re-decoded raw object (`raw = none`
embeds a raw text that does not decode as a JSON object). -/
def inferFields (resp0 : GeminiResponseS)
    (raw : Option (List (String × RawVal))) : GeminiResponseS :=
  if resp0.output ≠ "" ∨ resp0.quickReplies ≠ none then
    { resp0 with responseType := "dialogue" }
  else if resp0.searchPhrase ≠ "" then
    { resp0 with responseType := "search" }
  else if resp0.api ≠ "" ∨ resp0.params.isSome then
    { resp0 with responseType := "api_request" }
  else
    match raw with
    | some rawJSON => extractCategory (probeChain resp0 rawJSON) rawJSON
    | none => resp0

/-- The empty-`response_type` validation/inference step of
`ProcessWithUniversalPrompt`: run the field inference when the type is
empty, and fail with a parse error if it is still empty afterwards. -/
def inferResponseType (resp0 : GeminiResponseS)
    (raw : Option (List (String × RawVal))) : Except String GeminiResponseS :=
  if resp0.responseType = "" then
    if (inferFields resp0 raw).responseType = "" then
      Except.error "missing response_type in Gemini response and could not infer from fields"
    else Except.ok (inferFields resp0 raw)
  else Except.ok resp0

/-- Category recovery never touches the response type. -/
theorem extractCategory_responseType (resp : GeminiResponseS)
    (rawJSON : List (String × RawVal)) :
    (extractCategory resp rawJSON).responseType = resp.responseType := by
  unfold extractCategory
  split
  · split
    · rfl
    · split
      · rfl
      · split
        · rfl
        · rfl
  · rfl

/-- Category recovery never touches the output text. -/
theorem extractCategory_output (resp : GeminiResponseS)
    (rawJSON : List (String × RawVal)) :
    (extractCategory resp rawJSON).output = resp.output := by
  unfold extractCategory
  split
  · split
    · rfl
    · split
      · rfl
      · split
        · rfl
        · rfl
  · rfl

/-- C4 counterexample: a decoded response with every typed field empty
whose raw object carries `response` as an (empty) object together with
a non-empty `ASSISTANT_RESPONSE` string.  The claim says the
`ASSISTANT_RESPONSE` probe remaps it to a dialogue, yet the code's
else-if chain is captured by the object-shaped `response` branch and
parsing fails. -/
theorem inferResponseType_counterexample :
    inferResponseType {}
        (some [("response", RawVal.robj []), ("ASSISTANT_RESPONSE", RawVal.rstr "hi")])
      = Except.error
          "missing response_type in Gemini response and could not infer from fields" ∧
    isNonEmptyStr
        (lookupRaw [("response", RawVal.robj []), ("ASSISTANT_RESPONSE", RawVal.rstr "hi")]
          "ASSISTANT_RESPONSE")
      = some "hi" := by
  constructor
  · rfl
  · rfl

/-- C4 (amended). For a decoded response with empty `response_type`:
non-empty `output` or present `quick_replies` gives dialogue; else a
non-empty `search_phrase` gives search; else a non-empty `api` or
present `params` gives api_request; else the raw object is probed in
order (`response` string, `query`, `prompt_text`, `response` object's
`query_refinement`, `ASSISTANT_RESPONSE`) — but a `response` field
that decodes as an object captures the chain, so when it lacks a
non-empty `query_refinement` parsing fails even if
`ASSISTANT_RESPONSE` is present; `ASSISTANT_RESPONSE` is only reached
when `response` is not an object; if no probe fires (or the raw text
is not a JSON object) parsing fails with an error. -/
theorem inferResponseType_amended (resp : GeminiResponseS)
    (raw : Option (List (String × RawVal)))
    (h0 : resp.responseType = "") :
    (resp.output ≠ "" ∨ resp.quickReplies ≠ none →
      inferResponseType resp raw
        = Except.ok { resp with responseType := "dialogue" }) ∧
    (resp.output = "" → resp.quickReplies = none → resp.searchPhrase ≠ "" →
      inferResponseType resp raw
        = Except.ok { resp with responseType := "search" }) ∧
    (resp.output = "" → resp.quickReplies = none → resp.searchPhrase = "" →
      resp.api ≠ "" ∨ resp.params ≠ none →
      inferResponseType resp raw
        = Except.ok { resp with responseType := "api_request" }) ∧
    (resp.output = "" → resp.quickReplies = none → resp.searchPhrase = "" →
      resp.api = "" → resp.params = none →
      ∀ rawJSON, raw = some rawJSON →
      (∀ s, isNonEmptyStr (lookupRaw rawJSON "response") = some s →
        ∃ r, inferResponseType resp raw = Except.ok r ∧
          r.responseType = "dialogue" ∧ r.output = s) ∧
      (isNonEmptyStr (lookupRaw rawJSON "response") = none →
        isNonEmptyStr (lookupRaw rawJSON "query") = none →
        isNonEmptyStr (lookupRaw rawJSON "prompt_text") = none →
        ∀ fields, asObj (lookupRaw rawJSON "response") = some fields →
        isNonEmptyStr (lookupRaw fields "query_refinement") = none →
        inferResponseType resp raw
          = Except.error
              "missing response_type in Gemini response and could not infer from fields") ∧
      (isNonEmptyStr (lookupRaw rawJSON "response") = none →
        isNonEmptyStr (lookupRaw rawJSON "query") = none →
        isNonEmptyStr (lookupRaw rawJSON "prompt_text") = none →
        asObj (lookupRaw rawJSON "response") = none →
        ∀ s, isNonEmptyStr (lookupRaw rawJSON "ASSISTANT_RESPONSE") = some s →
        ∃ r, inferResponseType resp raw = Except.ok r ∧
          r.responseType = "dialogue" ∧ r.output = s)) ∧
    (resp.output = "" → resp.quickReplies = none → resp.searchPhrase = "" →
      resp.api = "" → resp.params = none → raw = none →
      inferResponseType resp raw
        = Except.error
            "missing response_type in Gemini response and could not infer from fields") := by
  refine ⟨?_, ?_, ?_, ?_, ?_⟩
  · intro h1
    have hf : inferFields resp raw = { resp with responseType := "dialogue" } := by
      unfold inferFields
      rw [if_pos h1]
    unfold inferResponseType
    rw [if_pos h0, hf]
    rfl
  · intro h1 h2 h3
    have hno1 : ¬ (resp.output ≠ "" ∨ resp.quickReplies ≠ none) := by simp [h1, h2]
    have hf : inferFields resp raw = { resp with responseType := "search" } := by
      unfold inferFields
      rw [if_neg hno1, if_pos h3]
    unfold inferResponseType
    rw [if_pos h0, hf]
    rfl
  · intro h1 h2 h3 h4
    have hno1 : ¬ (resp.output ≠ "" ∨ resp.quickReplies ≠ none) := by simp [h1, h2]
    have hno2 : ¬ (resp.searchPhrase ≠ "") := by simp [h3]
    have h4i : resp.api ≠ "" ∨ resp.params.isSome = true := by
      rcases h4 with hl | hr
      · exact Or.inl hl
      · exact Or.inr (Option.isSome_iff_ne_none.mpr hr)
    have hf : inferFields resp raw = { resp with responseType := "api_request" } := by
      unfold inferFields
      rw [if_neg hno1, if_neg hno2, if_pos h4i]
    unfold inferResponseType
    rw [if_pos h0, hf]
    rfl
  · intro h1 h2 h3 h4 h5 rawJSON hraw
    subst hraw
    have hno1 : ¬ (resp.output ≠ "" ∨ resp.quickReplies ≠ none) := by simp [h1, h2]
    have hno2 : ¬ (resp.searchPhrase ≠ "") := by simp [h3]
    have hno3 : ¬ (resp.api ≠ "" ∨ resp.params.isSome = true) := by simp [h4, h5]
    have hfields : inferFields resp (some rawJSON)
        = extractCategory (probeChain resp rawJSON) rawJSON := by
      simp only [inferFields, if_neg hno1, if_neg hno2, if_neg hno3]
    refine ⟨?_, ?_, ?_⟩
    · intro s hs
      have hchain : probeChain resp rawJSON
          = { resp with output := s, responseType := "dialogue" } := by
        simp only [probeChain, hs]
      have hrt : (inferFields resp (some rawJSON)).responseType = "dialogue" := by
        rw [hfields, extractCategory_responseType, hchain]
      have hout : (inferFields resp (some rawJSON)).output = s := by
        rw [hfields, extractCategory_output, hchain]
      refine ⟨inferFields resp (some rawJSON), ?_, hrt, hout⟩
      unfold inferResponseType
      rw [if_pos h0, if_neg (by rw [hrt]; decide)]
    · intro hr hq hp fields hf hqr
      have hchain : probeChain resp rawJSON = resp := by
        simp only [probeChain, hr, hq, hp, hf, hqr]
      have hrt : (inferFields resp (some rawJSON)).responseType = "" := by
        rw [hfields, extractCategory_responseType, hchain, h0]
      unfold inferResponseType
      rw [if_pos h0, if_pos hrt]
    · intro hr hq hp hobj s hs
      have hchain : probeChain resp rawJSON
          = { resp with output := s, responseType := "dialogue" } := by
        simp only [probeChain, hr, hq, hp, hobj, hs]
      have hrt : (inferFields resp (some rawJSON)).responseType = "dialogue" := by
        rw [hfields, extractCategory_responseType, hchain]
      have hout : (inferFields resp (some rawJSON)).output = s := by
        rw [hfields, extractCategory_output, hchain]
      refine ⟨inferFields resp (some rawJSON), ?_, hrt, hout⟩
      unfold inferResponseType
      rw [if_pos h0, if_neg (by rw [hrt]; decide)]
  · intro h1 h2 h3 h4 h5 hraw
    subst hraw
    have hno1 : ¬ (resp.output ≠ "" ∨ resp.quickReplies ≠ none) := by simp [h1, h2]
    have hno2 : ¬ (resp.searchPhrase ≠ "") := by simp [h3]
    have hno3 : ¬ (resp.api ≠ "" ∨ resp.params.isSome = true) := by simp [h4, h5]
    have hrt : (inferFields resp none).responseType = "" := by
      simp only [inferFields, if_neg hno1, if_neg hno2, if_neg hno3]
      exact h0
    unfold inferResponseType
    rw [if_pos h0, if_pos hrt]

/-- Witness for the amended C4, exercising the dialogue-inference
branch and the raw-undecodable failure branch at concrete inputs. -/
theorem inferResponseType_amended_witness :
    inferResponseType { output := "hello" } none
      = Except.ok { output := "hello", responseType := "dialogue" } ∧
    inferResponseType {} none
      = Except.error
          "missing response_type in Gemini response and could not infer from fields" := by
  constructor
  · exact (inferResponseType_amended { output := "hello" } none rfl).1
      (Or.inl (by decide))
  · exact (inferResponseType_amended {} none rfl).2.2.2.2 rfl rfl rfl rfl rfl rfl

/-! ## The chat orchestrator (`ChatProcessor.ProcessChat`)

The per-turn pipeline is embedded as a pure function over an explicit
environment record carrying the behaviour of every external
collaborator touched during the turn: the session/message stores, the
anonymous-search counter, UUID generation and parsing, the LLM, the
translator, the search provider, the context optimizer and the session
save.  The `models` structures below are reconstructed from their uses
in the orchestrator and from the spec data model (the model file
itself is not among the sources). -/

/-- A product card attached to a response (`models.ProductCard`);
only the name and raw price string are read by the orchestrator. -/
structure ProductCard where
  name : String
  price : String
deriving Repr, DecidableEq

/-- `models.SearchContext`: the last-search snapshot inside the
conversation context. -/
structure SearchContext where
  query : String
  category : String
  productsShown : List ProductInfo
  userFeedback : String
  timestamp : Nat
deriving Repr, DecidableEq

/-- `models.ConversationPreferences` (structure only; its contents are
produced by the LLM-backed extractor, abstracted in the environment). -/
structure ConversationPreferences where
  brands : List String := []
  features : List String := []
deriving Repr, DecidableEq

/-- `models.ConversationContext`: cross-cycle semantic memory. -/
structure ConversationContext where
  summary : String := ""
  preferences : ConversationPreferences := {}
  exclusions : List String := []
  lastSearch : Option SearchContext := none
  updatedAt : Nat := 0
deriving Repr, DecidableEq

/-- `models.SearchState` inside a session. -/
structure SearchStateS where
  status : String
  category : String
  searchCount : Nat
  lastProduct : Option ProductInfo
deriving Repr, DecidableEq

/-- `models.Message`: one persisted utterance. -/
structure Message where
  id : String
  sessionID : String
  role : String
  content : String
  responseType : String := ""
  quickReplies : Option (List String) := none
  products : List ProductCard := []
  createdAt : Nat
deriving Repr, DecidableEq

/-- `models.ChatSession`: the working state of one conversation,
including the messages appended in memory during the turn. -/
structure ChatSession where
  id : String
  userID : Option String
  countryCode : String
  languageCode : String
  currency : String
  messageCount : Nat
  searchState : SearchStateS
  cycleState : CycleState
  conversationContext : Option ConversationContext
  messages : List Message
deriving Repr, DecidableEq

/-- `handlers.ChatRequest`. -/
structure ChatRequest where
  sessionID : String
  userID : Option String
  message : String
  country : String
  language : String
  currency : String
  newSearch : Bool
  currentCategory : String
  browserID : String
  userMessageID : String
  assistantMessageID : String
deriving Repr, DecidableEq

/-- `handlers.ErrorInfo`. -/
structure ErrorInfo where
  code : String
  message : String
deriving Repr, DecidableEq

/-- `models.SearchStateResponse`. -/
structure SearchStateResponse where
  status : String
  category : String
  canContinue : Bool
  searchCount : Nat
  maxSearches : Nat
  anonymousSearchUsed : Nat := 0
  anonymousSearchLimit : Nat := 0
  requiresAuthentication : Bool := false
  message : String := ""
deriving Repr, DecidableEq

/-- `handlers.ChatProcessorResponse`. -/
structure ChatProcessorResponse where
  type : String := ""
  output : String := ""
  quickReplies : Option (List String) := none
  products : List ProductCard := []
  productDescription : String := ""
  searchType : String := ""
  sessionID : String := ""
  messageCount : Nat := 0
  searchState : Option SearchStateResponse := none
  error : Option ErrorInfo := none
deriving Repr, DecidableEq

/-- Configuration values read by the orchestrator (`container.Config`
and the session service's max-search setting, which are environment
data, not code under verification). -/
structure Config where
  defaultCountry : String
  defaultLanguage : String
  defaultCurrency : String
  anonymousSearchLimit : Nat
  maxSearches : Nat

/-- The behaviour of every external collaborator during one turn.
`gemini n` is the outcome of the (n+1)-th `ProcessWithUniversalPrompt`
attempt (`none` embeds an error or nil response); `translate` and
`serp` embed `TranslateToEnglish` and `SearchWithCache` (`none` is an
error); `parsePriceVal` abstracts `strconv.ParseFloat`; the fresh IDs
embed `uuid.New()` draws; `parseUUID` embeds `uuid.Parse` from the
external uuid library; `ctxUpdate` abstracts the LLM-backed
`UpdateConversationContext` mutation of the conversation context. -/
structure TurnEnv where
  anonCount1 : Option Nat
  anonCount2 : Option Nat
  createFails : Bool
  freshSessionID : String
  freshUserMsgID : String
  freshAsstMsgID : String
  parseUUID : String → Option String
  addUserMsgFails : Bool
  addAsstMsgFails : Bool
  gemini : Nat → Option GeminiResponseS
  translate : String → Option String
  serp : String → String → String → Option (List ProductCard)
  parsePriceVal : String → Rat
  shouldUpdateContext : Bool
  ctxUpdate : ConversationContext → ConversationContext
  saveFails : Bool
  now : Nat

/-- `parsePrice` (part of the orchestrator source): strips currency
symbols and separators, then parses the float (the parse itself is
the standard library's, abstracted in `parseFloat`). -/
def parsePrice (parseFloat : String → Rat) (priceStr : String) : Rat :=
  let s1 := priceStr.replace "$" ""
  let s2 := s1.replace "€" ""
  let s3 := s2.replace "£" ""
  let s4 := s3.replace "CHF" ""
  let s5 := s4.trim
  let s6 := s5.replace "," ""
  parseFloat s6

/-- Modelled from the spec: `SessionService.CreateSessionWithUser` is
not among the sources; per §3 and §6 it creates a fresh session with
the given ID, locale and optional owner, zero counters, and the
initial cycle state of §4.4. -/
def createSessionWithUser (id country language currency : String)
    (userID : Option String) : ChatSession :=
  { id := id
    userID := userID
    countryCode := country
    languageCode := language
    currency := currency
    messageCount := 0
    searchState := { status := "idle", category := "", searchCount := 0, lastProduct := none }
    cycleState := initializeCycleState ""
    conversationContext := none
    messages := [] }

/-- Modelled from the spec: `SessionService.StartNewSearchInMemory` is
not among the sources; per §4.1 step 4 it resets the in-memory
SearchState and CycleState views of the session. -/
def startNewSearchInMemory (s : ChatSession) : ChatSession :=
  { s with
    searchState := { status := "idle", category := "", searchCount := 0, lastProduct := none }
    cycleState := initializeCycleState s.cycleState.promptHash }

/-- Modelled from the spec: `MessageService.AddMessageInMemory` is not
among the sources; per §6 (Message Store `Append`) it appends the
message to the session's in-memory message list. -/
def addMessageInMemory (s : ChatSession) (m : Message) : ChatSession :=
  { s with messages := s.messages ++ [m] }

/-- `ContextExtractorService.UpdateLastSearch` (context_extractor.go):
initialize the conversation context when absent, then overwrite its
last-search snapshot. -/
def updateLastSearch (s : ChatSession) (query category : String)
    (products : List ProductInfo) (userFeedback : String) (now : Nat) :
    ChatSession :=
  let ctx :=
    match s.conversationContext with
    | none => ({ updatedAt := now } : ConversationContext)
    | some c => c
  let snap : SearchContext :=
    { query := query, category := category, productsShown := products, userFeedback := userFeedback, timestamp := now }
  { s with conversationContext := some ({ ctx with lastSearch := some snap }) }

/-- `ChatProcessor.getOrCreateSession`: non-empty supplied ID with a
store miss silently creates a fresh session under the same ID; a hit
re-links the owner and refreshes locale fields that the request
explicitly changed, then overrides the request with the session's
locale; an empty ID draws a fresh one. -/
def getOrCreateSession (env : TurnEnv) (store : Option ChatSession)
    (req : ChatRequest) : Option (ChatSession × ChatRequest) :=
  if req.sessionID ≠ "" then
    match store with
    | none =>
      if env.createFails then none
      else some (createSessionWithUser req.sessionID req.country
        req.language req.currency req.userID, req)
    | some s0 =>
      let s1 := if req.userID ≠ none ∧ s0.userID ≠ req.userID then
          { s0 with userID := req.userID } else s0
      let s2 := if req.language ≠ "" ∧ req.language ≠ s1.languageCode then
          { s1 with languageCode := req.language } else s1
      let s3 := if req.currency ≠ "" ∧ req.currency ≠ s2.currency then
          { s2 with currency := req.currency } else s2
      let s4 := if req.country ≠ "" ∧ req.country ≠ s3.countryCode then
          { s3 with countryCode := req.country } else s3
      some (s4, { req with language := s4.languageCode, country := s4.countryCode, currency := s4.currency })
  else
    if env.createFails then none
    else some (createSessionWithUser env.freshSessionID req.country
        req.language req.currency req.userID,
        { req with sessionID := env.freshSessionID })

/-- Default-locale resolution (step 2 of the pipeline). -/
def applyDefaults (cfg : Config) (req : ChatRequest) : ChatRequest :=
  { req with
    country := if req.country = "" then cfg.defaultCountry else req.country
    language := if req.language = "" then cfg.defaultLanguage else req.language
    currency := if req.currency = "" then cfg.defaultCurrency else req.currency }

/-- New-search reset (step 4). -/
def applyNewSearch (req : ChatRequest) (s : ChatSession) : ChatSession :=
  if req.newSearch then startNewSearchInMemory s else s

/-- Client category hint (between steps 4 and 5). -/
def applyCategoryHint (req : ChatRequest) (s : ChatSession) : ChatSession :=
  if req.currentCategory ≠ "" ∧ req.currentCategory ≠ s.searchState.category then
    { s with searchState := { s.searchState with category := req.currentCategory } }
  else s

/-- `ChatProcessor.performSearch`: translate the query to English
(falling back to the original on error), then call the cached search;
price bounds are display-only and never forwarded. -/
def performSearch (env : TurnEnv) (g : GeminiResponseS) (country : String) :
    Option (List ProductCard) × String :=
  let translatedQuery :=
    match env.translate g.searchPhrase with
    | some t => t
    | none => g.searchPhrase
  (env.serp translatedQuery g.searchType country, translatedQuery)

/-- `maxProcessingRetries` constant of the orchestrator. -/
def maxProcessingRetries : Nat := 2

/-- The AI retry loop (step 7): up to `maxProcessingRetries` extra
attempts; the sleep before retry `attempt+1` is `500*(attempt+1)` ms.
Returns the first successful response, the number of attempts issued,
and the list of sleeps performed. -/
def geminiRetryLoop (env : TurnEnv) :
    Nat → Nat → Option GeminiResponseS × Nat × List Nat
  | 0, _ => (none, 0, [])
  | fuel + 1, attempt =>
    match env.gemini attempt with
    | some g => (some g, 1, [])
    | none =>
      if attempt = maxProcessingRetries then (none, 1, [])
      else
        let rest := geminiRetryLoop env fuel (attempt + 1)
        (rest.1, rest.2.1 + 1, 500 * (attempt + 1) :: rest.2.2)

/-- The retry loop entered at attempt 0 with enough fuel for the
`attempt ≤ maxProcessingRetries` bound. -/
def runGemini (env : TurnEnv) : Option GeminiResponseS × Nat × List Nat :=
  geminiRetryLoop env (maxProcessingRetries + 1) 0

/-- The mutable per-turn state threaded through the search and
api_request handlers: the response under construction, the pending
assistant message, the session, and observable effect counters. -/
structure BranchState where
  response : ChatProcessorResponse
  assistantMessage : Message
  session : ChatSession
  searchCalls : Nat
  translateCalls : Nat
  anonIncrements : Nat
  searchSucceeded : Bool

/-- Shared success bookkeeping of both search branches: attach
products, bump the search counter, remember the last product, track
the anonymous counter increment, attach products to the pending
assistant message, and refresh the conversation context's last-search
snapshot. -/
def recordSearchSuccess (env : TurnEnv) (req : ChatRequest)
    (bs : BranchState) (products : List ProductCard)
    (translatedQuery category : String) : BranchState :=
  let first := products.head?
  let lastProduct :=
    match first with
    | some p => some ({ name := p.name, price := parsePrice env.parsePriceVal p.price } : ProductInfo)
    | none => bs.session.searchState.lastProduct
  let productInfoList := products.map
    (fun p => ({ name := p.name, price := parsePrice env.parsePriceVal p.price } : ProductInfo))
  let sess1 := { bs.session with searchState :=
    { bs.session.searchState with
      lastProduct := lastProduct
      searchCount := bs.session.searchState.searchCount + 1 } }
  let sess2 := updateLastSearch sess1 translatedQuery category productInfoList "" env.now
  { bs with
    session := sess2
    assistantMessage := { bs.assistantMessage with products := products }
    anonIncrements := bs.anonIncrements +
      (if req.userID = none ∧ req.browserID ≠ "" then 1 else 0)
    searchSucceeded := true }

/-- The `response_type == "search"` block of `ProcessChat`
(intermediate search): empty phrase degrades to a clarification
dialogue; search errors degrade to an apology; success records the
products (search-history persistence is fire-and-forget and leaves
the turn state untouched). -/
def handleSearch (env : TurnEnv) (g : GeminiResponseS) (req : ChatRequest)
    (bs : BranchState) : BranchState :=
  if g.responseType = "search" then
    if g.searchPhrase = "" then
      { bs with response := { bs.response with
          output := "I need more details about what product you're looking for. Could you be more specific?"
          type := "dialogue" } }
    else
      let res := performSearch env g req.country
      let bs1 := { bs with searchCalls := bs.searchCalls + 1, translateCalls := bs.translateCalls + 1 }
      match res.1 with
      | none =>
        { bs1 with response := { bs1.response with
            output := "Sorry, I couldn't find any products. Please try different keywords."
            type := "text" } }
      | some products =>
        if products.isEmpty then bs1
        else
          let bs2 := { bs1 with response := { bs1.response with
            products := products
            productDescription := g.productDescription
            searchType := g.searchType } }
          recordSearchSuccess env req bs2 products res.2 g.category
  else bs

/-- The `response_type == "api_request"` block of `ProcessChat`
(final search): only the `google_shopping` API with a usable string
parameter `q` runs; it searches with type `exact` and takes the AI's
own output text; failures and empty results degrade to dialogue. -/
def handleApi (env : TurnEnv) (g : GeminiResponseS) (req : ChatRequest)
    (bs : BranchState) : BranchState :=
  if g.responseType = "api_request" then
    if g.api = "google_shopping" ∧ g.params.isSome then
      let q :=
        match g.params with
        | some params =>
          match lookupRaw params "q" with
          | some (.rstr s) => s
          | _ => ""
        | none => ""
      if q = "" then
        { bs with response := { bs.response with
            output := "I need more details about what product you're looking for. Could you be more specific?"
            type := "dialogue" } }
      else
        let searchResp : GeminiResponseS :=
          { searchPhrase := q, searchType := "exact", category := g.category, priceFilter := g.priceFilter }
        let res := performSearch env searchResp req.country
        let bs1 := { bs with searchCalls := bs.searchCalls + 1, translateCalls := bs.translateCalls + 1 }
        match res.1 with
        | none =>
          { bs1 with response := { bs1.response with
              output := "Sorry, I couldn't find any products. Please try different keywords."
              type := "text" } }
        | some products =>
          if products.isEmpty then
            { bs1 with response := { bs1.response with
                output := "I couldn't find that exact product. Would you like to see similar alternatives?"
                type := "dialogue" } }
          else
            let bs2 := { bs1 with response := { bs1.response with
              products := products
              productDescription := g.productDescription
              searchType := "exact"
              output := g.output } }
            recordSearchSuccess env req bs2 products res.2 searchResp.category
    else
      { bs with response := { bs.response with
          output := "I encountered an error processing your request. Please try again."
          type := "dialogue" } }
  else bs

/-- The final-output synchronization step: the persisted assistant
content must equal the final response output; if both are empty a
placeholder replaces them. -/
def syncOutput (resp : ChatProcessorResponse) (msg : Message) :
    ChatProcessorResponse × Message :=
  if resp.output ≠ "" then (resp, { msg with content := resp.output })
  else if msg.content = "" then
    ({ resp with output := "..." }, { msg with content := "..." })
  else (resp, msg)

/-- The observable outcome of one turn: the response handed to the
transport, the in-memory session at return (when one was resolved),
the session successfully persisted by the terminal save (when it ran
and succeeded), and the effect trace. -/
structure TurnResult where
  response : ChatProcessorResponse
  session : Option ChatSession
  saved : Option ChatSession
  aiCalls : Nat
  aiSleeps : List Nat
  translateCalls : Nat
  searchCalls : Nat
  anonIncrements : Nat
  searchSucceeded : Bool
  storedUserMsg : Option Message
  storedAsstMsg : Option Message

/-- A turn result with empty trace, for the early-return paths. -/
def earlyResult (resp : ChatProcessorResponse) (sess : Option ChatSession) :
    TurnResult :=
  { response := resp, session := sess, saved := none, aiCalls := 0,
    aiSleeps := [], translateCalls := 0, searchCalls := 0,
    anonIncrements := 0, searchSucceeded := false, storedUserMsg := none,
    storedAsstMsg := none }

/-- The category refresh from the AI reply (step 8 preamble). -/
def applyGeminiCategory (g : GeminiResponseS) (s : ChatSession) : ChatSession :=
  if g.category ≠ "" then
    { s with searchState := { s.searchState with category := g.category } }
  else s

/-- The assistant-message ID resolution: a pre-assigned ID is used
only when it parses as a UUID, else a fresh one is drawn. -/
def resolveAsstMsgID (env : TurnEnv) (req : ChatRequest) : String :=
  if req.assistantMessageID ≠ "" then
    match env.parseUUID req.assistantMessageID with
    | some u => u
    | none => env.freshAsstMsgID
  else env.freshAsstMsgID

/-- The branch state entering the search/api handlers: the response
built from the AI reply and the pending assistant message, which both
start with the AI's output text. -/
def initialBranchState (env : TurnEnv) (req : ChatRequest)
    (g : GeminiResponseS) (sess5 : ChatSession) : BranchState :=
  let sess6 := applyGeminiCategory g sess5
  { response := { type := g.responseType, output := g.output, quickReplies := g.quickReplies, sessionID := req.sessionID, messageCount := sess6.messageCount + 1 }
    assistantMessage := { id := resolveAsstMsgID env req, sessionID := sess6.id, role := "assistant", content := g.output, responseType := g.responseType, quickReplies := g.quickReplies, createdAt := env.now }
    session := sess6
    searchCalls := 0
    translateCalls := 0
    anonIncrements := 0
    searchSucceeded := false }

/-- Steps 10–12 preamble on the session: persist the synced assistant
message (best-effort), append the AI output to the cycle history,
conditionally refresh the conversation context, increment the
iteration and rotate the cycle when exhausted, and reset the search
status to idle. -/
def postBranchSession (env : TurnEnv) (req : ChatRequest)
    (g : GeminiResponseS) (s : ChatSession) (syncMsg : Message) : ChatSession :=
  let sess7 := if env.addAsstMsgFails then s else addMessageInMemory s syncMsg
  let sess8 := { sess7 with cycleState := addToCycleHistory sess7.cycleState "assistant" g.output env.now }
  let sess9 := if env.shouldUpdateContext then
      { sess8 with conversationContext := some (env.ctxUpdate
          (match sess8.conversationContext with
           | none => ({ updatedAt := env.now } : ConversationContext)
           | some c => c)) }
    else sess8
  let inc := incrementIteration sess9.cycleState
  let sess10 := { sess9 with cycleState := inc.1 }
  let carried :=
    match sess10.searchState.lastProduct with
    | some p => [p]
    | none => []
  let sess11 := if inc.2 then sess10
    else { sess10 with cycleState := startNewCycle sess10.cycleState req.message carried }
  { sess11 with searchState := { sess11.searchState with status := "idle" } }

/-- The recomputed anonymous count for the outward search state
(step 13). -/
def anonUsedFinal (env : TurnEnv) (req : ChatRequest) : Nat :=
  if req.userID = none ∧ req.browserID ≠ "" then
    match env.anonCount2 with
    | some c => c
    | none => 0
  else 0

/-- The two response-type branches run in sequence on the initial
branch state. -/
def branchResult (env : TurnEnv) (req : ChatRequest) (g : GeminiResponseS)
    (sess5 : ChatSession) : BranchState :=
  handleApi env g req (handleSearch env g req
    (initialBranchState env req g sess5))

/-- Steps 8–13 of the pipeline, entered with a successful AI response:
branch handling, output sync, assistant-message persist, cycle
bookkeeping and rotation, terminal save, and the final search-state
assembly with the recomputed anonymous count. -/
def finishTurn (cfg : Config) (env : TurnEnv) (req : ChatRequest)
    (g : GeminiResponseS) (sess5 : ChatSession) (userMessage : Message)
    (calls : Nat) (sleeps : List Nat) : TurnResult :=
  let bs2 := branchResult env req g sess5
  let sync := syncOutput bs2.response bs2.assistantMessage
  let sess12 := postBranchSession env req g bs2.session sync.2
  if env.saveFails then
    { response :=
        { type := "error", output := "An error occurred while saving your conversation. Please try again.", sessionID := req.sessionID, messageCount := sess12.messageCount, error := some { code := "session_save_failed", message := "Failed to persist session changes" } }
      session := some sess12, saved := none, aiCalls := calls,
      aiSleeps := sleeps, translateCalls := bs2.translateCalls,
      searchCalls := bs2.searchCalls, anonIncrements := bs2.anonIncrements,
      searchSucceeded := bs2.searchSucceeded,
      storedUserMsg := some userMessage,
      storedAsstMsg := if env.addAsstMsgFails then none else some sync.2 }
  else
    let anonCurrent := anonUsedFinal env req
    let requiresAuth := req.userID = none ∧ cfg.anonymousSearchLimit ≤ anonCurrent
    let finalState : SearchStateResponse :=
      { status := sess12.searchState.status
        category := sess12.searchState.category
        canContinue := decide (sess12.searchState.searchCount < cfg.maxSearches) && !(decide requiresAuth)
        searchCount := sess12.searchState.searchCount
        maxSearches := cfg.maxSearches
        anonymousSearchUsed := anonCurrent
        anonymousSearchLimit := cfg.anonymousSearchLimit
        requiresAuthentication := decide requiresAuth }
    let finalResponse := { sync.1 with searchState := some finalState }
    { response := finalResponse, session := some sess12, saved := some sess12,
      aiCalls := calls, aiSleeps := sleeps,
      translateCalls := bs2.translateCalls, searchCalls := bs2.searchCalls,
      anonIncrements := bs2.anonIncrements,
      searchSucceeded := bs2.searchSucceeded,
      storedUserMsg := some userMessage,
      storedAsstMsg := if env.addAsstMsgFails then none else some sync.2 }

/-- The user-message ID resolution: a pre-assigned ID is used only
when it parses as a UUID, else a fresh one is drawn. -/
def resolveUserMsgID (env : TurnEnv) (req : ChatRequest) : String :=
  if req.userMessageID ≠ "" then
    match env.parseUUID req.userMessageID with
    | some u => u
    | none => env.freshUserMsgID
  else env.freshUserMsgID

/-- The user message persisted at step 6. -/
def mkUserMessage (env : TurnEnv) (req : ChatRequest) (sess2 : ChatSession) :
    Message :=
  { id := resolveUserMsgID env req, sessionID := sess2.id, role := "user", content := req.message, createdAt := env.now }

/-- The session after the user message is stored, counted, and added
to the cycle history (steps 6 and 6b). -/
def sessionWithUserMsg (env : TurnEnv) (req : ChatRequest)
    (sess2 : ChatSession) (userMessage : Message) : ChatSession :=
  let sess3 := addMessageInMemory sess2 userMessage
  let sess4 := { sess3 with messageCount := sess3.messageCount + 1 }
  { sess4 with cycleState := addToCycleHistory sess4.cycleState "user" req.message env.now }

/-- Steps 6–7 of the pipeline, entered once the quota gates have been
passed: resolve the user-message ID, persist the user message, append
it to the cycle history, and run the AI retry loop, degrading to the
canned "having trouble" dialogue when every attempt fails. -/
def processAfterChecks (cfg : Config) (env : TurnEnv) (req : ChatRequest)
    (sess2 : ChatSession) : TurnResult :=
  let userMessage := mkUserMessage env req sess2
  if env.addUserMsgFails then
    earlyResult
      { error := some { code := "storage_error", message := "Failed to store message" } }
      (some sess2)
  else
    let sess5 := sessionWithUserMsg env req sess2 userMessage
    let ai := runGemini env
    match ai.1 with
    | none =>
      { response :=
          { type := "dialogue", output := "I'm having trouble processing your request right now. Could you please rephrase your question or try again in a moment?", quickReplies := some ["Start over", "Try again"], sessionID := req.sessionID, messageCount := sess5.messageCount, searchState := some { status := sess5.searchState.status, category := sess5.searchState.category, canContinue := decide (sess5.searchState.searchCount < cfg.maxSearches), searchCount := sess5.searchState.searchCount, maxSearches := cfg.maxSearches, message := "Temporary processing issue" } }
        session := some sess5, saved := none, aiCalls := ai.2.1,
        aiSleeps := ai.2.2, translateCalls := 0, searchCalls := 0,
        anonIncrements := 0, searchSucceeded := false,
        storedUserMsg := some userMessage, storedAsstMsg := none }
    | some g => finishTurn cfg env req g sess5 userMessage ai.2.1 ai.2.2


/-- The anonymous-usage count read at the start of the turn: only
unauthenticated requests with a browser ID consult the counter, and a
counter error degrades to zero rather than blocking the user. -/
def anonUsedStart (env : TurnEnv) (req : ChatRequest) : Nat :=
  if req.userID = none ∧ req.browserID ≠ "" then
    match env.anonCount1 with
    | some c => c
    | none => 0
  else 0

/-- `ChatProcessor.ProcessChat`: the whole per-turn pipeline. -/
def processChat (cfg : Config) (env : TurnEnv) (store : Option ChatSession)
    (req0 : ChatRequest) : TurnResult :=
  if req0.message = "" then
    earlyResult
      { error := some { code := "validation_error", message := "Message is required" } }
      none
  else
    let req1 := applyDefaults cfg req0
    match getOrCreateSession env store req1 with
    | none =>
      earlyResult
        { error := some { code := "session_error", message := "Failed to create session" } }
        none
    | some (sess0, req) =>
      let sess2 := applyCategoryHint req (applyNewSearch req sess0)
      let anonUsed := anonUsedStart env req
      if req.userID = none ∧ req.browserID ≠ "" ∧ cfg.anonymousSearchLimit ≤ anonUsed then
        earlyResult
          { type := "text", output := "You've used all 3 free searches! Please sign up or log in to continue searching for products.", sessionID := req.sessionID, messageCount := sess2.messageCount, searchState := some { status := sess2.searchState.status, category := sess2.searchState.category, canContinue := false, searchCount := sess2.searchState.searchCount, maxSearches := cfg.maxSearches, anonymousSearchUsed := anonUsed, anonymousSearchLimit := cfg.anonymousSearchLimit, requiresAuthentication := true, message := "Anonymous search limit reached - authentication required" } }
          (some sess2)
      else if cfg.maxSearches ≤ sess2.searchState.searchCount then
        earlyResult
          { type := "text", output := "You have reached the maximum number of searches. Please start a new search.", sessionID := req.sessionID, messageCount := sess2.messageCount, searchState := some { status := sess2.searchState.status, category := sess2.searchState.category, canContinue := false, searchCount := sess2.searchState.searchCount, maxSearches := cfg.maxSearches, anonymousSearchUsed := anonUsed, anonymousSearchLimit := cfg.anonymousSearchLimit, requiresAuthentication := false, message := "Search limit reached" } }
          (some sess2)
      else processAfterChecks cfg env req sess2

/-- A sequence of turns against the session store: each turn reads the
stored session and, when its terminal save succeeds, replaces it. -/
def processTurns (cfg : Config) :
    List (ChatRequest × TurnEnv) → Option ChatSession → Option ChatSession
  | [], store => store
  | (req, env) :: rest, store =>
    let r := processChat cfg env store req
    processTurns cfg rest
      (match r.saved with
       | some s => some s
       | none => store)

/-- On a non-empty message with a resolved session and both quota
gates passed, the turn proceeds past the checks. -/
theorem processChat_main_path (cfg : Config) (env : TurnEnv)
    (store : Option ChatSession) (req0 : ChatRequest) (sess0 : ChatSession)
    (req : ChatRequest)
    (h1 : ¬ req0.message = "")
    (h2 : getOrCreateSession env store (applyDefaults cfg req0) = some (sess0, req))
    (h3 : ¬ (req.userID = none ∧ req.browserID ≠ "" ∧
      cfg.anonymousSearchLimit ≤ anonUsedStart env req))
    (h4 : (applyCategoryHint req (applyNewSearch req sess0)).searchState.searchCount
      < cfg.maxSearches) :
    processChat cfg env store req0
      = processAfterChecks cfg env req
          (applyCategoryHint req (applyNewSearch req sess0)) := by
  unfold processChat
  rw [if_neg h1]
  simp only [h2]
  rw [if_neg h3, if_neg (by omega :
    ¬ cfg.maxSearches ≤ (applyCategoryHint req (applyNewSearch req sess0)).searchState.searchCount)]

/-- The AI retry loop issues at most three attempts. -/
theorem runGemini_calls_le (env : TurnEnv) : (runGemini env).2.1 ≤ 3 := by
  unfold runGemini maxProcessingRetries
  rcases h0 : env.gemini 0 with _ | g0
  · rcases h1 : env.gemini 1 with _ | g1
    · rcases h2 : env.gemini 2 with _ | g2
      · simp [geminiRetryLoop, h0, h1, h2, maxProcessingRetries]
      · simp [geminiRetryLoop, h0, h1, h2, maxProcessingRetries]
    · simp [geminiRetryLoop, h0, h1, maxProcessingRetries]
  · simp [geminiRetryLoop, h0]

/-- When every attempt fails, the loop issues exactly three calls with
the 500ms and 1000ms sleeps in between. -/
theorem runGemini_all_fail (env : TurnEnv)
    (h0 : env.gemini 0 = none) (h1 : env.gemini 1 = none)
    (h2 : env.gemini 2 = none) :
    runGemini env = (none, 3, [500, 1000]) := by
  unfold runGemini
  simp [geminiRetryLoop, h0, h1, h2, maxProcessingRetries]

/-- `finishTurn` reports the AI call count, sleeps, and stored user
message it was given. -/
theorem finishTurn_trace (cfg : Config) (env : TurnEnv) (req : ChatRequest)
    (g : GeminiResponseS) (sess5 : ChatSession) (userMessage : Message)
    (calls : Nat) (sleeps : List Nat) :
    (finishTurn cfg env req g sess5 userMessage calls sleeps).aiCalls = calls ∧
    (finishTurn cfg env req g sess5 userMessage calls sleeps).aiSleeps = sleeps ∧
    (finishTurn cfg env req g sess5 userMessage calls sleeps).storedUserMsg
      = some userMessage := by
  cases hsf : env.saveFails <;> simp [finishTurn, hsf]

/-- C6. AI-failure graceful degradation: on any turn that reaches the
AI step, the AI collaborator is invoked at most three times with
500ms/1000ms sleeps between failed attempts, and when every attempt
fails the turn returns the fixed "having trouble" dialogue with the
canned quick replies and a nil error — the failure is never surfaced
as an error result. -/
theorem ai_failure_graceful_degradation (cfg : Config) (env : TurnEnv)
    (store : Option ChatSession) (req0 : ChatRequest) (sess0 : ChatSession)
    (req : ChatRequest)
    (h1 : ¬ req0.message = "")
    (h2 : getOrCreateSession env store (applyDefaults cfg req0) = some (sess0, req))
    (h3 : ¬ (req.userID = none ∧ req.browserID ≠ "" ∧
      cfg.anonymousSearchLimit ≤ anonUsedStart env req))
    (h4 : (applyCategoryHint req (applyNewSearch req sess0)).searchState.searchCount
      < cfg.maxSearches)
    (h5 : env.addUserMsgFails = false) :
    (processChat cfg env store req0).aiCalls ≤ 3 ∧
    (env.gemini 0 = none → env.gemini 1 = none → env.gemini 2 = none →
      (processChat cfg env store req0).aiCalls = 3 ∧
      (processChat cfg env store req0).aiSleeps = [500, 1000] ∧
      (processChat cfg env store req0).response.error = none ∧
      (processChat cfg env store req0).response.type = "dialogue" ∧
      (processChat cfg env store req0).response.output
        = "I'm having trouble processing your request right now. Could you please rephrase your question or try again in a moment?" ∧
      (processChat cfg env store req0).response.quickReplies
        = some ["Start over", "Try again"]) := by
  rw [processChat_main_path cfg env store req0 sess0 req h1 h2 h3 h4]
  constructor
  · unfold processAfterChecks
    rw [h5]
    simp only [Bool.false_eq_true, if_false]
    rcases hai : (runGemini env).1 with _ | g
    · simp only []
      have := runGemini_calls_le env
      simp only [hai] at this ⊢
      exact this
    · have hc := runGemini_calls_le env
      simp only [hai]
      rw [(finishTurn_trace cfg env req g _ _ _ _).1]
      exact hc
  · intro hg0 hg1 hg2
    have hall := runGemini_all_fail env hg0 hg1 hg2
    unfold processAfterChecks
    rw [h5]
    simp only [Bool.false_eq_true, if_false, hall]
    exact ⟨trivial, trivial, trivial, trivial, trivial, trivial⟩

/-- Witness for C6 at a concrete configuration, request and always-
failing AI environment. -/
theorem ai_failure_graceful_degradation_witness :
    (processChat
      { defaultCountry := "US", defaultLanguage := "en", defaultCurrency := "USD", anonymousSearchLimit := 3, maxSearches := 7 }
      { anonCount1 := some 0, anonCount2 := some 0, createFails := false, freshSessionID := "S", freshUserMsgID := "U1", freshAsstMsgID := "A1", parseUUID := fun _ => none, addUserMsgFails := false, addAsstMsgFails := false, gemini := fun _ => none, translate := fun s => some s, serp := fun _ _ _ => none, parsePriceVal := fun _ => 0, shouldUpdateContext := false, ctxUpdate := id, saveFails := false, now := 5 }
      none
      { sessionID := "sess1", userID := none, message := "find laptop", country := "", language := "", currency := "", newSearch := false, currentCategory := "", browserID := "b1", userMessageID := "", assistantMessageID := "" }).aiCalls = 3 ∧
    (processChat
      { defaultCountry := "US", defaultLanguage := "en", defaultCurrency := "USD", anonymousSearchLimit := 3, maxSearches := 7 }
      { anonCount1 := some 0, anonCount2 := some 0, createFails := false, freshSessionID := "S", freshUserMsgID := "U1", freshAsstMsgID := "A1", parseUUID := fun _ => none, addUserMsgFails := false, addAsstMsgFails := false, gemini := fun _ => none, translate := fun s => some s, serp := fun _ _ _ => none, parsePriceVal := fun _ => 0, shouldUpdateContext := false, ctxUpdate := id, saveFails := false, now := 5 }
      none
      { sessionID := "sess1", userID := none, message := "find laptop", country := "", language := "", currency := "", newSearch := false, currentCategory := "", browserID := "b1", userMessageID := "", assistantMessageID := "" }).response.error = none := by
  have h := ai_failure_graceful_degradation
    { defaultCountry := "US", defaultLanguage := "en", defaultCurrency := "USD", anonymousSearchLimit := 3, maxSearches := 7 }
    { anonCount1 := some 0, anonCount2 := some 0, createFails := false, freshSessionID := "S", freshUserMsgID := "U1", freshAsstMsgID := "A1", parseUUID := fun _ => none, addUserMsgFails := false, addAsstMsgFails := false, gemini := fun _ => none, translate := fun s => some s, serp := fun _ _ _ => none, parsePriceVal := fun _ => 0, shouldUpdateContext := false, ctxUpdate := id, saveFails := false, now := 5 }
    none
    { sessionID := "sess1", userID := none, message := "find laptop", country := "", language := "", currency := "", newSearch := false, currentCategory := "", browserID := "b1", userMessageID := "", assistantMessageID := "" }
    (createSessionWithUser "sess1" "US" "en" "USD" none)
    { sessionID := "sess1", userID := none, message := "find laptop", country := "US", language := "en", currency := "USD", newSearch := false, currentCategory := "", browserID := "b1", userMessageID := "", assistantMessageID := "" }
    (by decide) (by rfl) (by decide) (by decide) (by rfl)
  obtain ⟨-, hfail⟩ := h
  obtain ⟨hc, -, he, -⟩ := hfail rfl rfl rfl
  exact ⟨hc, he⟩

/-- Refreshing the last-search snapshot never touches the search
state. -/
theorem updateLastSearch_searchState (s : ChatSession) (q c : String)
    (p : List ProductInfo) (f : String) (n : Nat) :
    (updateLastSearch s q c p f n).searchState = s.searchState := rfl

/-- Recording a successful search bumps the counter by exactly one
and marks the success flag. -/
theorem recordSearchSuccess_spec (env : TurnEnv) (req : ChatRequest)
    (bs : BranchState) (products : List ProductCard) (tq cat : String) :
    (recordSearchSuccess env req bs products tq cat).session.searchState.searchCount
      = bs.session.searchState.searchCount + 1 ∧
    (recordSearchSuccess env req bs products tq cat).searchSucceeded = true := by
  constructor
  · show (updateLastSearch _ _ _ _ _ _).searchState.searchCount = _
    rw [updateLastSearch_searchState]
  · rfl

/-- The search branch is inert for other response types. -/
theorem handleSearch_noop (env : TurnEnv) (g : GeminiResponseS)
    (req : ChatRequest) (bs : BranchState)
    (h : ¬ g.responseType = "search") :
    handleSearch env g req bs = bs := by
  simp [handleSearch, h]

/-- The api_request branch is inert for other response types. -/
theorem handleApi_noop (env : TurnEnv) (g : GeminiResponseS)
    (req : ChatRequest) (bs : BranchState)
    (h : ¬ g.responseType = "api_request") :
    handleApi env g req bs = bs := by
  simp [handleApi, h]

/-- The search branch increments the counter exactly when it records a
success. -/
theorem handleSearch_count (env : TurnEnv) (g : GeminiResponseS)
    (req : ChatRequest) (bs : BranchState)
    (h : bs.searchSucceeded = false) :
    (handleSearch env g req bs).session.searchState.searchCount
      = bs.session.searchState.searchCount +
        (if (handleSearch env g req bs).searchSucceeded then 1 else 0) := by
  by_cases ht : g.responseType = "search"
  · unfold handleSearch
    rw [if_pos ht]
    by_cases hp : g.searchPhrase = ""
    · simp [hp, h]
    · simp only [hp, if_false]
      rcases hs : (performSearch env g req.country).1 with _ | products
      · simp [hs, h]
      · by_cases hempty : products.isEmpty
        · simp [hs, hempty, h]
        · simp only [hs, hempty, Bool.false_eq_true, if_false]
          rw [(recordSearchSuccess_spec env req _ products _ g.category).1,
            (recordSearchSuccess_spec env req _ products _ g.category).2]
          simp
  · rw [handleSearch_noop env g req bs ht, h]
    simp

/-- The api_request branch increments the counter exactly when it
records a success. -/
theorem handleApi_count (env : TurnEnv) (g : GeminiResponseS)
    (req : ChatRequest) (bs : BranchState)
    (h : bs.searchSucceeded = false) :
    (handleApi env g req bs).session.searchState.searchCount
      = bs.session.searchState.searchCount +
        (if (handleApi env g req bs).searchSucceeded then 1 else 0) := by
  by_cases ht : g.responseType = "api_request"
  · unfold handleApi
    rw [if_pos ht]
    by_cases hgs : g.api = "google_shopping" ∧ g.params.isSome
    · rw [if_pos hgs]
      by_cases hq : (match g.params with
        | some params =>
          match lookupRaw params "q" with
          | some (.rstr s) => s
          | _ => ""
        | none => "") = ""
      · simp [hq, h]
      · simp only [hq, if_false]
        rcases hs : (performSearch env
            { searchPhrase := (match g.params with
              | some params =>
                match lookupRaw params "q" with
                | some (.rstr s) => s
                | _ => ""
              | none => ""), searchType := "exact", category := g.category, priceFilter := g.priceFilter }
            req.country).1 with _ | products
        · simp [hs, h]
        · by_cases hempty : products.isEmpty
          · simp [hs, hempty, h]
          · simp only [hs, hempty, Bool.false_eq_true, if_false]
            rw [(recordSearchSuccess_spec env req _ products _ _).1,
              (recordSearchSuccess_spec env req _ products _ _).2]
            simp
    · simp [hgs, h]
  · rw [handleApi_noop env g req bs ht, h]
    simp

/-- The two branches together increment the counter exactly when one
of them records a success (they are mutually exclusive on the response
type). -/
theorem handlers_count (env : TurnEnv) (g : GeminiResponseS)
    (req : ChatRequest) (bs : BranchState)
    (h : bs.searchSucceeded = false) :
    (handleApi env g req (handleSearch env g req bs)).session.searchState.searchCount
      = bs.session.searchState.searchCount +
        (if (handleApi env g req (handleSearch env g req bs)).searchSucceeded then 1 else 0) := by
  by_cases ht : g.responseType = "search"
  · rw [handleApi_noop env g req _ (by rw [ht]; decide)]
    exact handleSearch_count env g req bs h
  · rw [handleSearch_noop env g req bs ht]
    exact handleApi_count env g req bs h

/-- The AI-category refresh preserves the search count. -/
theorem applyGeminiCategory_count (g : GeminiResponseS) (s : ChatSession) :
    (applyGeminiCategory g s).searchState.searchCount
      = s.searchState.searchCount := by
  unfold applyGeminiCategory
  split <;> rfl

/-- The post-branch bookkeeping touches only the status field of the
search state. -/
theorem postBranchSession_searchState (env : TurnEnv) (req : ChatRequest)
    (g : GeminiResponseS) (s : ChatSession) (syncMsg : Message) :
    (postBranchSession env req g s syncMsg).searchState
      = { s.searchState with status := "idle" } := by
  unfold postBranchSession
  cases hmf : env.addAsstMsgFails <;> cases hctx : env.shouldUpdateContext <;>
    simp only [hmf, hctx, Bool.false_eq_true, if_false, if_true] <;>
    split <;> rfl

/-- A session persisted by `finishTurn` carries exactly the branch
handlers' search count: the post-branch bookkeeping never touches
it. -/
theorem finishTurn_saved_count (cfg : Config) (env : TurnEnv)
    (req : ChatRequest) (g : GeminiResponseS) (sess5 : ChatSession)
    (userMessage : Message) (calls : Nat) (sleeps : List Nat) :
    ∀ s', (finishTurn cfg env req g sess5 userMessage calls sleeps).saved = some s' →
      s'.searchState.searchCount ≤ sess5.searchState.searchCount + 1 := by
  intro s' hsaved
  cases hsf : env.saveFails with
  | true => simp [finishTurn, hsf] at hsaved
  | false =>
    unfold finishTurn at hsaved
    simp only [hsf, Bool.false_eq_true, if_false] at hsaved
    obtain rfl := Option.some_inj.mp hsaved
    rw [postBranchSession_searchState]
    have hcount := handlers_count env g req (initialBranchState env req g sess5) rfl
    have hinit : (initialBranchState env req g sess5).session
        = applyGeminiCategory g sess5 := rfl
    rw [hinit, applyGeminiCategory_count] at hcount
    show (branchResult env req g sess5).session.searchState.searchCount ≤ _
    rw [branchResult, hcount]
    split <;> omega

/-- In both save outcomes `finishTurn` returns the post-branch session
and the branch handlers' success flag. -/
theorem finishTurn_session (cfg : Config) (env : TurnEnv) (req : ChatRequest)
    (g : GeminiResponseS) (sess5 : ChatSession) (userMessage : Message)
    (calls : Nat) (sleeps : List Nat) :
    (finishTurn cfg env req g sess5 userMessage calls sleeps).session
      = some (postBranchSession env req g (branchResult env req g sess5).session
          (syncOutput (branchResult env req g sess5).response
            (branchResult env req g sess5).assistantMessage).2) ∧
    (finishTurn cfg env req g sess5 userMessage calls sleeps).searchSucceeded
      = (branchResult env req g sess5).searchSucceeded := by
  cases hsf : env.saveFails <;> simp [finishTurn, hsf]

/-- The branch handlers' count evolution, phrased on `branchResult`. -/
theorem branchResult_count (env : TurnEnv) (req : ChatRequest)
    (g : GeminiResponseS) (sess5 : ChatSession) :
    (branchResult env req g sess5).session.searchState.searchCount
      = sess5.searchState.searchCount +
        (if (branchResult env req g sess5).searchSucceeded then 1 else 0) := by
  have hcount := handlers_count env g req (initialBranchState env req g sess5) rfl
  have hinit : (initialBranchState env req g sess5).session
      = applyGeminiCategory g sess5 := rfl
  rw [hinit, applyGeminiCategory_count] at hcount
  exact hcount

/-- Any session persisted by a turn respects the configured search
quota: persistence only happens past the quota gate, and a turn adds
at most one search. -/
theorem processChat_saved_le (cfg : Config) (env : TurnEnv)
    (store : Option ChatSession) (req0 : ChatRequest) :
    ∀ s', (processChat cfg env store req0).saved = some s' →
      s'.searchState.searchCount ≤ cfg.maxSearches := by
  intro s' hs
  unfold processChat at hs
  by_cases h1 : req0.message = ""
  · simp [h1, earlyResult] at hs
  · rw [if_neg h1] at hs
    rcases hred : getOrCreateSession env store (applyDefaults cfg req0) with _ | ⟨sess0, req⟩
    · simp [hred, earlyResult] at hs
    · simp only [hred] at hs
      by_cases hanon : req.userID = none ∧ req.browserID ≠ "" ∧
          cfg.anonymousSearchLimit ≤ anonUsedStart env req
      · simp [hanon, earlyResult] at hs
      · rw [if_neg hanon] at hs
        by_cases hq : cfg.maxSearches ≤
            (applyCategoryHint req (applyNewSearch req sess0)).searchState.searchCount
        · simp [hq, earlyResult] at hs
        · rw [if_neg hq] at hs
          unfold processAfterChecks at hs
          cases hum : env.addUserMsgFails with
          | true => simp [hum, earlyResult] at hs
          | false =>
            simp only [hum, Bool.false_eq_true, if_false] at hs
            rcases hai : (runGemini env).1 with _ | g
            · simp only [hai] at hs
              exact absurd hs (by simp)
            · simp only [hai] at hs
              have hle := finishTurn_saved_count cfg env req g
                (sessionWithUserMsg env req
                  (applyCategoryHint req (applyNewSearch req sess0))
                  (mkUserMessage env req (applyCategoryHint req (applyNewSearch req sess0))))
                (mkUserMessage env req (applyCategoryHint req (applyNewSearch req sess0)))
                (runGemini env).2.1 (runGemini env).2.2 s' hs
              have heq : (sessionWithUserMsg env req
                  (applyCategoryHint req (applyNewSearch req sess0))
                  (mkUserMessage env req (applyCategoryHint req (applyNewSearch req sess0)))).searchState.searchCount
                  = (applyCategoryHint req (applyNewSearch req sess0)).searchState.searchCount := rfl
              rw [heq] at hle
              omega

/-- Across any sequence of turns, the stored session's search count
never exceeds the configured maximum. -/
theorem processTurns_le (cfg : Config) (turns : List (ChatRequest × TurnEnv)) :
    ∀ store0 : Option ChatSession,
    (∀ s, store0 = some s → s.searchState.searchCount ≤ cfg.maxSearches) →
    ∀ s, processTurns cfg turns store0 = some s →
      s.searchState.searchCount ≤ cfg.maxSearches := by
  induction turns with
  | nil =>
    intro store0 hinv s hs
    exact hinv s hs
  | cons turn rest ih =>
    obtain ⟨req, env⟩ := turn
    intro store0 hinv s hs
    rw [processTurns] at hs
    refine ih _ ?_ s hs
    intro s1 hs1
    rcases hsaved : (processChat cfg env store0 req).saved with _ | s2
    · rw [hsaved] at hs1
      exact hinv s1 hs1
    · rw [hsaved] at hs1
      obtain rfl := Option.some_inj.mp hs1
      exact processChat_saved_le cfg env store0 req _ hsaved

/-- C5. Search-quota invariant: (1) a turn starting at or above the
configured maximum returns a limit-reached response with CanContinue
false, makes no AI and no search call, and persists nothing; (2) a
turn past the gates changes the session's search count by exactly the
success flag of the search handling — each successful search
increments it by exactly one; (3) consequently, across any sequence of
turns the stored search count never exceeds the configured maximum. -/
theorem search_quota_invariant (cfg : Config) :
    (∀ (env : TurnEnv) (store : Option ChatSession) (req0 : ChatRequest)
      (sess0 : ChatSession) (req : ChatRequest),
      ¬ req0.message = "" →
      getOrCreateSession env store (applyDefaults cfg req0) = some (sess0, req) →
      cfg.maxSearches ≤ (applyCategoryHint req (applyNewSearch req sess0)).searchState.searchCount →
      (processChat cfg env store req0).aiCalls = 0 ∧
      (processChat cfg env store req0).searchCalls = 0 ∧
      (processChat cfg env store req0).translateCalls = 0 ∧
      (processChat cfg env store req0).saved = none ∧
      (processChat cfg env store req0).session
        = some (applyCategoryHint req (applyNewSearch req sess0)) ∧
      (∃ st, (processChat cfg env store req0).response.searchState = some st ∧
        st.canContinue = false)) ∧
    (∀ (env : TurnEnv) (store : Option ChatSession) (req0 : ChatRequest)
      (sess0 : ChatSession) (req : ChatRequest),
      ¬ req0.message = "" →
      getOrCreateSession env store (applyDefaults cfg req0) = some (sess0, req) →
      ¬ (req.userID = none ∧ req.browserID ≠ "" ∧
        cfg.anonymousSearchLimit ≤ anonUsedStart env req) →
      (applyCategoryHint req (applyNewSearch req sess0)).searchState.searchCount
        < cfg.maxSearches →
      ∀ s', (processChat cfg env store req0).session = some s' →
        s'.searchState.searchCount
          = (applyCategoryHint req (applyNewSearch req sess0)).searchState.searchCount
            + (if (processChat cfg env store req0).searchSucceeded then 1 else 0)) ∧
    (∀ (turns : List (ChatRequest × TurnEnv)) (store0 : Option ChatSession),
      (∀ s, store0 = some s → s.searchState.searchCount ≤ cfg.maxSearches) →
      ∀ s, processTurns cfg turns store0 = some s →
        s.searchState.searchCount ≤ cfg.maxSearches) := by
  refine ⟨?_, ?_, processTurns_le cfg⟩
  · intro env store req0 sess0 req h1 h2 hq
    unfold processChat
    rw [if_neg h1]
    simp only [h2]
    by_cases hanon : req.userID = none ∧ req.browserID ≠ "" ∧
        cfg.anonymousSearchLimit ≤ anonUsedStart env req
    · rw [if_pos hanon]
      exact ⟨rfl, rfl, rfl, rfl, rfl, _, rfl, rfl⟩
    · rw [if_neg hanon, if_pos hq]
      exact ⟨rfl, rfl, rfl, rfl, rfl, _, rfl, rfl⟩
  · intro env store req0 sess0 req h1 h2 h3 h4 s' hs
    rw [processChat_main_path cfg env store req0 sess0 req h1 h2 h3 h4] at hs ⊢
    unfold processAfterChecks at hs ⊢
    cases hum : env.addUserMsgFails with
    | true =>
      simp only [hum, if_true] at hs ⊢
      obtain rfl := Option.some_inj.mp hs
      simp [earlyResult]
    | false =>
      simp only [hum, Bool.false_eq_true, if_false] at hs ⊢
      rcases hai : (runGemini env).1 with _ | g
      · simp only [hai] at hs ⊢
        obtain rfl := Option.some_inj.mp hs
        rfl
      · simp only [hai] at hs ⊢
        have hft := finishTurn_session cfg env req g
          (sessionWithUserMsg env req
            (applyCategoryHint req (applyNewSearch req sess0))
            (mkUserMessage env req (applyCategoryHint req (applyNewSearch req sess0))))
          (mkUserMessage env req (applyCategoryHint req (applyNewSearch req sess0)))
          (runGemini env).2.1 (runGemini env).2.2
        rw [hft.1] at hs
        obtain rfl := Option.some_inj.mp hs
        rw [hft.2, postBranchSession_searchState]
        show (branchResult env req g _).session.searchState.searchCount = _
        rw [branchResult_count]
        rfl

/-- Concrete configuration for witnesses. -/
def cfgW : Config :=
  { defaultCountry := "US", defaultLanguage := "en", defaultCurrency := "USD", anonymousSearchLimit := 3, maxSearches := 7 }

/-- Concrete environment whose AI requests a search and whose search
provider returns one product. -/
def envW : TurnEnv :=
  { anonCount1 := some 0, anonCount2 := some 0, createFails := false, freshSessionID := "S", freshUserMsgID := "U1", freshAsstMsgID := "A1", parseUUID := fun _ => none, addUserMsgFails := false, addAsstMsgFails := false, gemini := fun _ => some { responseType := "search", output := "Here you go", searchPhrase := "laptop", searchType := "exact", category := "electronics" }, translate := fun s => some s, serp := fun _ _ _ => some [{ name := "MacBook", price := "999" }], parsePriceVal := fun _ => 999, shouldUpdateContext := false, ctxUpdate := id, saveFails := false, now := 5 }

/-- Concrete request for witnesses. -/
def reqW : ChatRequest :=
  { sessionID := "sess1", userID := none, message := "find laptop", country := "", language := "", currency := "", newSearch := false, currentCategory := "", browserID := "b1", userMessageID := "", assistantMessageID := "" }

/-- `reqW` after default resolution. -/
def reqWd : ChatRequest := { reqW with country := "US", language := "en", currency := "USD" }

/-- A stored session already at the quota. -/
def sessFullW : ChatSession :=
  { createSessionWithUser "sess1" "US" "en" "USD" none with searchState := { status := "idle", category := "", searchCount := 7, lastProduct := none } }

/-- Witness for C5: at the quota the turn makes no AI or search call
and reports CanContinue false; below the quota a successful search
moves the count from 0 to exactly 1; the two-turn fold from an empty
store stays within the quota. -/
theorem search_quota_invariant_witness :
    ((processChat cfgW envW (some sessFullW) reqW).aiCalls = 0 ∧
      (processChat cfgW envW (some sessFullW) reqW).searchCalls = 0 ∧
      (∃ st, (processChat cfgW envW (some sessFullW) reqW).response.searchState = some st ∧
        st.canContinue = false)) ∧
    (((processChat cfgW envW none reqW).session.getD
        (createSessionWithUser "" "" "" "" none)).searchState.searchCount = 1) := by
  constructor
  · have h := (search_quota_invariant cfgW).1 envW (some sessFullW) reqW sessFullW reqWd
      (by decide) (by rfl) (by decide)
    exact ⟨h.1, h.2.1, h.2.2.2.2.2⟩
  · have h := (search_quota_invariant cfgW).2.1 envW none reqW
      (createSessionWithUser "sess1" "US" "en" "USD" none) reqWd
      (by decide) (by rfl) (by decide) (by decide)
    have h2 := h ((processChat cfgW envW none reqW).session.getD
      (createSessionWithUser "" "" "" "" none)) (by rfl)
    rw [h2]
    rfl

/-- The search branch never touches the pending assistant message's
content (only its products). -/
theorem handleSearch_content (env : TurnEnv) (g : GeminiResponseS)
    (req : ChatRequest) (bs : BranchState) :
    (handleSearch env g req bs).assistantMessage.content
      = bs.assistantMessage.content := by
  by_cases ht : g.responseType = "search"
  · unfold handleSearch
    rw [if_pos ht]
    by_cases hp : g.searchPhrase = ""
    · simp [hp]
    · simp only [hp, if_false]
      rcases hs : (performSearch env g req.country).1 with _ | products
      · simp [hs]
      · by_cases hempty : products.isEmpty
        · simp [hs, hempty]
        · simp only [hs, hempty, Bool.false_eq_true, if_false]
          rfl
  · rw [handleSearch_noop env g req bs ht]

/-- The api_request branch never touches the pending assistant
message's content. -/
theorem handleApi_content (env : TurnEnv) (g : GeminiResponseS)
    (req : ChatRequest) (bs : BranchState) :
    (handleApi env g req bs).assistantMessage.content
      = bs.assistantMessage.content := by
  by_cases ht : g.responseType = "api_request"
  · unfold handleApi
    rw [if_pos ht]
    by_cases hgs : g.api = "google_shopping" ∧ g.params.isSome
    · rw [if_pos hgs]
      by_cases hq : (match g.params with
        | some params =>
          match lookupRaw params "q" with
          | some (.rstr s) => s
          | _ => ""
        | none => "") = ""
      · simp [hq]
      · simp only [hq, if_false]
        rcases hs : (performSearch env
            { searchPhrase := (match g.params with
              | some params =>
                match lookupRaw params "q" with
                | some (.rstr s) => s
                | _ => ""
              | none => ""), searchType := "exact", category := g.category, priceFilter := g.priceFilter }
            req.country).1 with _ | products
        · simp [hs]
        · by_cases hempty : products.isEmpty
          · simp [hs, hempty]
          · simp only [hs, hempty, Bool.false_eq_true, if_false]
            rfl
    · simp [hgs]
  · rw [handleApi_noop env g req bs ht]

/-- The search branch either leaves the output alone or sets it to a
non-empty canned text. -/
theorem handleSearch_output (env : TurnEnv) (g : GeminiResponseS)
    (req : ChatRequest) (bs : BranchState) :
    (handleSearch env g req bs).response.output = bs.response.output ∨
    ¬ (handleSearch env g req bs).response.output = "" := by
  by_cases ht : g.responseType = "search"
  · unfold handleSearch
    rw [if_pos ht]
    by_cases hp : g.searchPhrase = ""
    · right
      simp [hp]
    · simp only [hp, if_false]
      rcases hs : (performSearch env g req.country).1 with _ | products
      · right
        simp [hs]
      · by_cases hempty : products.isEmpty
        · left
          simp [hs, hempty]
        · left
          simp only [hs, hempty, Bool.false_eq_true, if_false]
          rfl
  · left
    rw [handleSearch_noop env g req bs ht]

/-- The api_request branch leaves the output alone, sets it to the
AI's own output text, or sets it to a non-empty canned text. -/
theorem handleApi_output (env : TurnEnv) (g : GeminiResponseS)
    (req : ChatRequest) (bs : BranchState) :
    (handleApi env g req bs).response.output = bs.response.output ∨
    (handleApi env g req bs).response.output = g.output ∨
    ¬ (handleApi env g req bs).response.output = "" := by
  by_cases ht : g.responseType = "api_request"
  · unfold handleApi
    rw [if_pos ht]
    by_cases hgs : g.api = "google_shopping" ∧ g.params.isSome
    · rw [if_pos hgs]
      by_cases hq : (match g.params with
        | some params =>
          match lookupRaw params "q" with
          | some (.rstr s) => s
          | _ => ""
        | none => "") = ""
      · right
        right
        simp [hq]
      · simp only [hq, if_false]
        rcases hs : (performSearch env
            { searchPhrase := (match g.params with
              | some params =>
                match lookupRaw params "q" with
                | some (.rstr s) => s
                | _ => ""
              | none => ""), searchType := "exact", category := g.category, priceFilter := g.priceFilter }
            req.country).1 with _ | products
        · right
          right
          simp [hs]
        · by_cases hempty : products.isEmpty
          · right
            right
            simp [hs, hempty]
          · right
            left
            simp only [hs, hempty, Bool.false_eq_true, if_false]
            rfl
    · right
      right
      simp [hgs]
  · left
    rw [handleApi_noop env g req bs ht]

/-- If the branch output ends up empty, so is the pending assistant
content: both always trace back to the AI's output text. -/
theorem branchResult_empty_output (env : TurnEnv) (req : ChatRequest)
    (g : GeminiResponseS) (sess5 : ChatSession)
    (h : (branchResult env req g sess5).response.output = "") :
    (branchResult env req g sess5).assistantMessage.content = "" := by
  have hcontent : (branchResult env req g sess5).assistantMessage.content
      = g.output := by
    unfold branchResult
    rw [handleApi_content, handleSearch_content]
    rfl
  rw [hcontent]
  have hout1 := handleSearch_output env g req (initialBranchState env req g sess5)
  have hout2 := handleApi_output env g req (handleSearch env g req (initialBranchState env req g sess5))
  have hinit : (initialBranchState env req g sess5).response.output = g.output := rfl
  unfold branchResult at h
  rcases hout2 with h2 | h2 | h2
  · rw [h2] at h
    rcases hout1 with h1 | h1
    · rw [h1, hinit] at h
      exact h
    · exact absurd h h1
  · rw [h2] at h
    exact h
  · exact absurd h h2

/-- After synchronization the assistant content equals the response
output, and it is never empty, provided an empty output implies an
empty content (which the branch invariants guarantee). -/
theorem syncOutput_content (resp : ChatProcessorResponse) (msg : Message)
    (h : resp.output = "" → msg.content = "") :
    (syncOutput resp msg).2.content = (syncOutput resp msg).1.output ∧
    ¬ (syncOutput resp msg).1.output = "" := by
  unfold syncOutput
  by_cases ho : resp.output = ""
  · rw [if_neg (by simpa using ho), if_pos (h ho)]
    exact ⟨rfl, by simp⟩
  · rw [if_pos (by simpa using ho)]
    exact ⟨rfl, ho⟩

/-- The post-branch bookkeeping appends exactly the synced assistant
message to the session's messages (when its store does not fail). -/
theorem postBranchSession_messages (env : TurnEnv) (req : ChatRequest)
    (g : GeminiResponseS) (s : ChatSession) (syncMsg : Message)
    (h : env.addAsstMsgFails = false) :
    (postBranchSession env req g s syncMsg).messages
      = s.messages ++ [syncMsg] := by
  unfold postBranchSession
  cases hctx : env.shouldUpdateContext <;>
    simp only [h, hctx, Bool.false_eq_true, if_false, if_true] <;>
    split <;> rfl

/-- C7. Final-output synchronization: on every turn that reaches the
assistant-message persist step (and whose persist and save succeed),
the stored assistant message's content equals the final output text
returned to the user and is never empty, the persisted session ends
with exactly that message, and whenever both the response output and
the assistant content are empty at the sync point both are replaced by
the "..." placeholder. -/
theorem final_output_synchronization (cfg : Config) (env : TurnEnv)
    (store : Option ChatSession) (req0 : ChatRequest) (sess0 : ChatSession)
    (req : ChatRequest) (g : GeminiResponseS)
    (h1 : ¬ req0.message = "")
    (h2 : getOrCreateSession env store (applyDefaults cfg req0) = some (sess0, req))
    (h3 : ¬ (req.userID = none ∧ req.browserID ≠ "" ∧
      cfg.anonymousSearchLimit ≤ anonUsedStart env req))
    (h4 : (applyCategoryHint req (applyNewSearch req sess0)).searchState.searchCount
      < cfg.maxSearches)
    (h5 : env.addUserMsgFails = false)
    (h6 : (runGemini env).1 = some g)
    (h7 : env.addAsstMsgFails = false)
    (h8 : env.saveFails = false) :
    (∃ m, (processChat cfg env store req0).storedAsstMsg = some m ∧
      m.content = (processChat cfg env store req0).response.output ∧
      ¬ m.content = "" ∧
      ∃ s', (processChat cfg env store req0).saved = some s' ∧
        s'.messages.getLast? = some m) ∧
    (∀ (resp : ChatProcessorResponse) (msg : Message),
      resp.output = "" → msg.content = "" →
      syncOutput resp msg
        = ({ resp with output := "..." }, { msg with content := "..." })) := by
  constructor
  · rw [processChat_main_path cfg env store req0 sess0 req h1 h2 h3 h4]
    unfold processAfterChecks
    simp only [h5, Bool.false_eq_true, if_false, h6]
    set sess2 := applyCategoryHint req (applyNewSearch req sess0)
    set sess5 := sessionWithUserMsg env req sess2 (mkUserMessage env req sess2)
    set bs2 := branchResult env req g sess5 with hbs2
    have hsync := syncOutput_content bs2.response bs2.assistantMessage
      (fun h => by rw [hbs2]; exact branchResult_empty_output env req g sess5 (by rw [← hbs2]; exact h))
    unfold finishTurn
    simp only [h8, Bool.false_eq_true, if_false, h7]
    refine ⟨(syncOutput bs2.response bs2.assistantMessage).2, rfl, ?_, ?_, ?_⟩
    · exact hsync.1
    · have := hsync.1
      intro hc
      rw [hc] at this
      exact hsync.2 this.symm
    · refine ⟨postBranchSession env req g bs2.session
        (syncOutput bs2.response bs2.assistantMessage).2, rfl, ?_⟩
      rw [postBranchSession_messages env req g _ _ h7]
      exact List.getLast?_concat _
  · intro resp msg ho hc
    unfold syncOutput
    rw [if_neg (by simpa using ho), if_pos hc]

/-- Witness for C7 at the concrete search turn of the quota witness:
the stored assistant message carries the final output and the
placeholder rule holds at a concrete empty pair. -/
theorem final_output_synchronization_witness :
    ((processChat cfgW envW none reqW).storedAsstMsg.map (fun m => m.content)
      = some (processChat cfgW envW none reqW).response.output) ∧
    syncOutput {} { id := "i", sessionID := "s", role := "assistant", content := "", createdAt := 0 }
      = ({ output := "..." },
        { id := "i", sessionID := "s", role := "assistant", content := "...", createdAt := 0 }) := by
  have h := final_output_synchronization cfgW envW none reqW
    (createSessionWithUser "sess1" "US" "en" "USD" none) reqWd
    { responseType := "search", output := "Here you go", searchPhrase := "laptop", searchType := "exact", category := "electronics" }
    (by decide) (by rfl) (by decide) (by decide) (by rfl) (by rfl) (by rfl) (by rfl)
  constructor
  · obtain ⟨m, hm, hcontent, -, -⟩ := h.1
    rw [hm, Option.map_some']
    rw [hcontent]
  · exact h.2 {} { id := "i", sessionID := "s", role := "assistant", content := "", createdAt := 0 } rfl rfl

/-- Session resolution carries the pre-assigned message IDs through
untouched. -/
theorem getOrCreateSession_preserves_ids (env : TurnEnv)
    (store : Option ChatSession) (reqIn : ChatRequest) (sess : ChatSession)
    (req' : ChatRequest)
    (h : getOrCreateSession env store reqIn = some (sess, req')) :
    req'.userMessageID = reqIn.userMessageID ∧
    req'.assistantMessageID = reqIn.assistantMessageID := by
  unfold getOrCreateSession at h
  by_cases hs : reqIn.sessionID = ""
  · rw [if_neg (fun hne => hne hs)] at h
    cases hcf : env.createFails with
    | true => rw [hcf] at h; simp at h
    | false =>
      rw [hcf] at h
      simp only [Bool.false_eq_true, if_false, Option.some_inj] at h
      injection h with h1 h2
      rw [← h2]
      exact ⟨rfl, rfl⟩
  · rw [if_pos hs] at h
    rcases store with _ | s0
    · cases hcf : env.createFails with
      | true => rw [hcf] at h; simp at h
      | false =>
        rw [hcf] at h
        simp only [Bool.false_eq_true, if_false, Option.some_inj] at h
        injection h with h1 h2
        rw [← h2]
        exact ⟨rfl, rfl⟩
    · simp only [Option.some_inj] at h
      have h2 := congrArg Prod.snd h
      simp only at h2
      rw [← h2]
      exact ⟨rfl, rfl⟩

/-- Session resolution commutes with scrubbing the user-message ID. -/
theorem getOrCreateSession_scrub_user (env : TurnEnv)
    (store : Option ChatSession) (req : ChatRequest) :
    getOrCreateSession env store { req with userMessageID := "" }
      = (getOrCreateSession env store req).map
          (fun p => (p.1, { p.2 with userMessageID := "" })) := by
  unfold getOrCreateSession
  by_cases hs : req.sessionID = ""
  · have hs' : ¬ (({ req with userMessageID := "" } : ChatRequest).sessionID ≠ "") :=
      fun hne => hne hs
    rw [if_neg (show ¬(req.sessionID ≠ "") from fun hne => hne hs), if_neg hs']
    cases hcf : env.createFails <;> rfl
  · have hs' : (({ req with userMessageID := "" } : ChatRequest).sessionID ≠ "") := hs
    rw [if_pos hs', if_pos hs]
    rcases store with _ | s0
    · cases hcf : env.createFails <;> rfl
    · rfl

/-- Session resolution commutes with scrubbing the assistant-message
ID. -/
theorem getOrCreateSession_scrub_asst (env : TurnEnv)
    (store : Option ChatSession) (req : ChatRequest) :
    getOrCreateSession env store { req with assistantMessageID := "" }
      = (getOrCreateSession env store req).map
          (fun p => (p.1, { p.2 with assistantMessageID := "" })) := by
  unfold getOrCreateSession
  by_cases hs : req.sessionID = ""
  · have hs' : ¬ (({ req with assistantMessageID := "" } : ChatRequest).sessionID ≠ "") :=
      fun hne => hne hs
    rw [if_neg (show ¬(req.sessionID ≠ "") from fun hne => hne hs), if_neg hs']
    cases hcf : env.createFails <;> rfl
  · have hs' : (({ req with assistantMessageID := "" } : ChatRequest).sessionID ≠ "") := hs
    rw [if_pos hs', if_pos hs]
    rcases store with _ | s0
    · cases hcf : env.createFails <;> rfl
    · rfl

/-- When the pre-assigned user-message ID does not parse as a UUID,
the post-gate steps behave exactly as if no ID was supplied. -/
theorem processAfterChecks_scrub_user (cfg : Config) (env : TurnEnv)
    (req : ChatRequest) (sess2 : ChatSession)
    (h : env.parseUUID req.userMessageID = none) :
    processAfterChecks cfg env req sess2
      = processAfterChecks cfg env { req with userMessageID := "" } sess2 := by
  have hid : mkUserMessage env req sess2
      = mkUserMessage env { req with userMessageID := "" } sess2 := by
    unfold mkUserMessage resolveUserMsgID
    by_cases hv : req.userMessageID = ""
    · simp [hv]
    · rw [if_pos (by simpa using hv), h]
      rfl
  have hsw : sessionWithUserMsg env req sess2
      = sessionWithUserMsg env { req with userMessageID := "" } sess2 := rfl
  have hft : ∀ g s um c sl, finishTurn cfg env req g s um c sl
      = finishTurn cfg env { req with userMessageID := "" } g s um c sl :=
    fun _ _ _ _ _ => rfl
  unfold processAfterChecks
  dsimp only
  rw [hid, hsw]
  simp only [hft]

/-- When the pre-assigned assistant-message ID does not parse as a
UUID, the post-gate steps behave exactly as if no ID was supplied. -/
theorem processAfterChecks_scrub_asst (cfg : Config) (env : TurnEnv)
    (req : ChatRequest) (sess2 : ChatSession)
    (h : env.parseUUID req.assistantMessageID = none) :
    processAfterChecks cfg env req sess2
      = processAfterChecks cfg env { req with assistantMessageID := "" } sess2 := by
  have hid : resolveAsstMsgID env req
      = resolveAsstMsgID env { req with assistantMessageID := "" } := by
    unfold resolveAsstMsgID
    by_cases hv : req.assistantMessageID = ""
    · simp [hv]
    · rw [if_pos (by simpa using hv), h]
      rfl
  have hmk : mkUserMessage env req sess2
      = mkUserMessage env { req with assistantMessageID := "" } sess2 := rfl
  have hsw : sessionWithUserMsg env req sess2
      = sessionWithUserMsg env { req with assistantMessageID := "" } sess2 := rfl
  have hfinish : ∀ g sess5 um calls sleeps,
      finishTurn cfg env req g sess5 um calls sleeps
        = finishTurn cfg env { req with assistantMessageID := "" } g sess5 um calls sleeps := by
    intro g sess5 um calls sleeps
    have hhs : ∀ bs, handleSearch env g req bs
        = handleSearch env g { req with assistantMessageID := "" } bs := fun _ => rfl
    have hha : ∀ bs, handleApi env g req bs
        = handleApi env g { req with assistantMessageID := "" } bs := fun _ => rfl
    have hpb : ∀ s, postBranchSession env req g s
        = postBranchSession env { req with assistantMessageID := "" } g s := fun _ => rfl
    have hau : anonUsedFinal env req
        = anonUsedFinal env { req with assistantMessageID := "" } := rfl
    unfold finishTurn branchResult initialBranchState
    dsimp only
    rw [hid]
    simp only [hhs, hha, hpb, hau]
  unfold processAfterChecks
  dsimp only
  rw [hmk, hsw]
  simp only [hfinish]

/-- A turn whose pre-assigned user-message ID fails to parse proceeds
exactly as if no ID had been supplied. -/
theorem processChat_scrub_user (cfg : Config) (env : TurnEnv)
    (store : Option ChatSession) (req0 : ChatRequest)
    (hp : env.parseUUID req0.userMessageID = none) :
    processChat cfg env store req0
      = processChat cfg env store { req0 with userMessageID := "" } := by
  unfold processChat
  by_cases hm : req0.message = ""
  · rw [if_pos hm, if_pos hm]
  · rw [if_neg hm, if_neg hm]
    dsimp only
    generalize hq : applyDefaults cfg req0 = req1
    have hd : applyDefaults cfg { req0 with userMessageID := "" }
        = { req1 with userMessageID := "" } := by
      rw [← hq]
      rfl
    rw [hd, getOrCreateSession_scrub_user env store req1]
    rcases hg : getOrCreateSession env store req1 with _ | ⟨sess0, req⟩
    · rfl
    · have hpres := getOrCreateSession_preserves_ids env store req1 sess0 req hg
      have hr1 : req1.userMessageID = req0.userMessageID := by
        rw [← hq]
        rfl
      have hpu : env.parseUUID req.userMessageID = none := by
        rw [hpres.1, hr1]
        exact hp
      have hsess2 : applyCategoryHint { req with userMessageID := "" }
          (applyNewSearch { req with userMessageID := "" } sess0)
          = applyCategoryHint req (applyNewSearch req sess0) := rfl
      have hanon : anonUsedStart env { req with userMessageID := "" }
          = anonUsedStart env req := rfl
      dsimp only [Option.map]
      rw [hanon, hsess2,
        processAfterChecks_scrub_user cfg env req
          (applyCategoryHint req (applyNewSearch req sess0)) hpu]

/-- A turn whose pre-assigned assistant-message ID fails to parse
proceeds exactly as if no ID had been supplied. -/
theorem processChat_scrub_asst (cfg : Config) (env : TurnEnv)
    (store : Option ChatSession) (req0 : ChatRequest)
    (hp : env.parseUUID req0.assistantMessageID = none) :
    processChat cfg env store req0
      = processChat cfg env store { req0 with assistantMessageID := "" } := by
  unfold processChat
  by_cases hm : req0.message = ""
  · rw [if_pos hm, if_pos hm]
  · rw [if_neg hm, if_neg hm]
    dsimp only
    generalize hq : applyDefaults cfg req0 = req1
    have hd : applyDefaults cfg { req0 with assistantMessageID := "" }
        = { req1 with assistantMessageID := "" } := by
      rw [← hq]
      rfl
    rw [hd, getOrCreateSession_scrub_asst env store req1]
    rcases hg : getOrCreateSession env store req1 with _ | ⟨sess0, req⟩
    · rfl
    · have hpres := getOrCreateSession_preserves_ids env store req1 sess0 req hg
      have hr1 : req1.assistantMessageID = req0.assistantMessageID := by
        rw [← hq]
        rfl
      have hpu : env.parseUUID req.assistantMessageID = none := by
        rw [hpres.2, hr1]
        exact hp
      have hsess2 : applyCategoryHint { req with assistantMessageID := "" }
          (applyNewSearch { req with assistantMessageID := "" } sess0)
          = applyCategoryHint req (applyNewSearch req sess0) := rfl
      have hanon : anonUsedStart env { req with assistantMessageID := "" }
          = anonUsedStart env req := rfl
      dsimp only [Option.map]
      rw [hanon, hsess2,
        processAfterChecks_scrub_asst cfg env req
          (applyCategoryHint req (applyNewSearch req sess0)) hpu]

/-- Once the gates are passed and the user-message store succeeds, the
stored user message is exactly the one built at step 6. -/
theorem processAfterChecks_storedUserMsg (cfg : Config) (env : TurnEnv)
    (req : ChatRequest) (sess2 : ChatSession)
    (h5 : env.addUserMsgFails = false) :
    (processAfterChecks cfg env req sess2).storedUserMsg
      = some (mkUserMessage env req sess2) := by
  unfold processAfterChecks
  rw [h5]
  simp only [Bool.false_eq_true, if_false]
  rcases hai : (runGemini env).1 with _ | g
  · rfl
  · exact (finishTurn_trace cfg env req g
      (sessionWithUserMsg env req sess2 (mkUserMessage env req sess2))
      (mkUserMessage env req sess2) (runGemini env).2.1 (runGemini env).2.2).2.2

/-- The resolved user-message ID falls back to the fresh UUID when the
supplied one does not parse. -/
theorem resolveUserMsgID_parse_none (env : TurnEnv) (req : ChatRequest)
    (h : env.parseUUID req.userMessageID = none) :
    resolveUserMsgID env req = env.freshUserMsgID := by
  unfold resolveUserMsgID
  by_cases hv : req.userMessageID = ""
  · rw [if_neg (fun hne => hne hv)]
  · rw [if_pos (by simpa using hv), h]

/-- The resolved user-message ID keeps a supplied ID that parses. -/
theorem resolveUserMsgID_parse_some (env : TurnEnv) (req : ChatRequest)
    (u : String) (hv : req.userMessageID ≠ "")
    (h : env.parseUUID req.userMessageID = some u) :
    resolveUserMsgID env req = u := by
  unfold resolveUserMsgID
  rw [if_pos (by simpa using hv), h]

/-- C10. Pre-assigned message-ID fallback: a request whose supplied
`UserMessageID` (resp. `AssistantMessageID`) fails to parse as a UUID
is not rejected — the whole turn behaves exactly as if no ID had been
supplied, so a fresh UUID is silently drawn for that message; and on
the main path the stored user message carries the fresh UUID when the
supplied ID fails to parse, and carries the supplied ID exactly when
it is non-empty and parses. -/
theorem preassigned_message_id_fallback (cfg : Config) (env : TurnEnv)
    (store : Option ChatSession) (req0 : ChatRequest) :
    (env.parseUUID req0.userMessageID = none →
      processChat cfg env store req0
        = processChat cfg env store { req0 with userMessageID := "" }) ∧
    (env.parseUUID req0.assistantMessageID = none →
      processChat cfg env store req0
        = processChat cfg env store { req0 with assistantMessageID := "" }) ∧
    (∀ sess0 req,
      ¬ req0.message = "" →
      getOrCreateSession env store (applyDefaults cfg req0) = some (sess0, req) →
      ¬ (req.userID = none ∧ req.browserID ≠ "" ∧
        cfg.anonymousSearchLimit ≤ anonUsedStart env req) →
      (applyCategoryHint req (applyNewSearch req sess0)).searchState.searchCount
        < cfg.maxSearches →
      env.addUserMsgFails = false →
      ((env.parseUUID req.userMessageID = none →
        (processChat cfg env store req0).storedUserMsg.map (fun m => m.id)
          = some env.freshUserMsgID) ∧
      (∀ u, req.userMessageID ≠ "" →
        env.parseUUID req.userMessageID = some u →
        (processChat cfg env store req0).storedUserMsg.map (fun m => m.id)
          = some u))) := by
  refine ⟨fun hp => processChat_scrub_user cfg env store req0 hp,
    fun hp => processChat_scrub_asst cfg env store req0 hp, ?_⟩
  intro sess0 req h1 h2 h3 h4 h5
  have hmain := processChat_main_path cfg env store req0 sess0 req h1 h2 h3 h4
  rw [hmain]
  rw [processAfterChecks_storedUserMsg cfg env req
    (applyCategoryHint req (applyNewSearch req sess0)) h5]
  constructor
  · intro hpn
    simp only [Option.map]
    rw [show (mkUserMessage env req
        (applyCategoryHint req (applyNewSearch req sess0))).id
      = resolveUserMsgID env req from rfl]
    rw [resolveUserMsgID_parse_none env req hpn]
  · intro u hv hps
    simp only [Option.map]
    rw [show (mkUserMessage env req
        (applyCategoryHint req (applyNewSearch req sess0))).id
      = resolveUserMsgID env req from rfl]
    rw [resolveUserMsgID_parse_some env req u hv hps]

/-- Environment accepting any non-empty string as a UUID, for the C10
witness. -/
def envWid : TurnEnv :=
  { envW with parseUUID := fun s => if s = "" then none else some s }

/-- Witness for C10: with a non-parsing supplied ID the turn equals
the scrubbed turn, and with a parsing supplied ID the stored user
message carries exactly that ID. -/
theorem preassigned_message_id_fallback_witness :
    processChat cfgW envW none { reqW with userMessageID := "not-a-uuid" }
      = processChat cfgW envW none
          { { reqW with userMessageID := "not-a-uuid" } with userMessageID := "" } ∧
    (processChat cfgW envWid none
        { reqW with userMessageID := "u-42" }).storedUserMsg.map (fun m => m.id)
      = some "u-42" := by
  constructor
  · exact (preassigned_message_id_fallback cfgW envW none
      { reqW with userMessageID := "not-a-uuid" }).1 rfl
  · exact ((preassigned_message_id_fallback cfgW envWid none
      { reqW with userMessageID := "u-42" }).2.2
      (createSessionWithUser "sess1" "US" "en" "USD" none)
      { reqWd with userMessageID := "u-42" }
      (by decide) (by rfl) (by decide) (by decide) rfl).2
      "u-42" (by decide) rfl

/-- C9. Session-ID stability on store miss: when a non-empty session
ID is supplied but the store holds no session, resolution creates a
fresh session reusing exactly the supplied ID — no error, no different
ID — and a turn whose gates pass then proceeds normally with that
session. -/
theorem session_id_stability (env : TurnEnv) (req : ChatRequest)
    (hs : req.sessionID ≠ "") (hc : env.createFails = false) :
    getOrCreateSession env none req
      = some (createSessionWithUser req.sessionID req.country req.language
          req.currency req.userID, req) ∧
    (createSessionWithUser req.sessionID req.country req.language
        req.currency req.userID).id = req.sessionID ∧
    (∀ cfg req0,
      applyDefaults cfg req0 = req →
      ¬ req0.message = "" →
      ¬ (req.userID = none ∧ req.browserID ≠ "" ∧
        cfg.anonymousSearchLimit ≤ anonUsedStart env req) →
      (applyCategoryHint req (applyNewSearch req
        (createSessionWithUser req.sessionID req.country req.language
          req.currency req.userID))).searchState.searchCount
        < cfg.maxSearches →
      processChat cfg env none req0
        = processAfterChecks cfg env req
            (applyCategoryHint req (applyNewSearch req
              (createSessionWithUser req.sessionID req.country req.language
                req.currency req.userID)))) := by
  have hres : getOrCreateSession env none req
      = some (createSessionWithUser req.sessionID req.country req.language
          req.currency req.userID, req) := by
    unfold getOrCreateSession
    rw [if_pos hs, hc]
    rfl
  refine ⟨hres, rfl, ?_⟩
  intro cfg req0 hd h1 h3 h4
  exact processChat_main_path cfg env none req0
    (createSessionWithUser req.sessionID req.country req.language
      req.currency req.userID) req h1 (by rw [hd]; exact hres) h3 h4

/-- Witness for C9: the supplied but missing session ID "sess1" is
reused verbatim by the freshly created session and the turn proceeds
to the post-gate steps. -/
theorem session_id_stability_witness :
    getOrCreateSession envW none reqWd
      = some (createSessionWithUser "sess1" "US" "en" "USD" none, reqWd) ∧
    (createSessionWithUser reqWd.sessionID reqWd.country reqWd.language
        reqWd.currency reqWd.userID).id = "sess1" ∧
    processChat cfgW envW none reqW
      = processAfterChecks cfgW envW reqWd
          (applyCategoryHint reqWd (applyNewSearch reqWd
            (createSessionWithUser reqWd.sessionID reqWd.country reqWd.language
              reqWd.currency reqWd.userID))) := by
  have h := session_id_stability envW reqWd (by decide) rfl
  exact ⟨h.1, h.2.1, h.2.2 cfgW reqW rfl (by decide) (by decide) (by decide)⟩

/-- One process's WebSocket registry restricted to a single user:
`clients` are the live connection IDs on the process (the keys of
`h.clients`) and `userConns` the connection set registered for the
user in `h.userConns` (`none` when the map holds no entry). -/
structure WSProc where
  clients : List String
  userConns : Option (List String)
  deriving DecidableEq

/-- `WSHandler.broadcastToUser`, local leg: deliver to every live
connection registered for the user on this process, skipping the
originating connection, skipping connections missing from `clients`. -/
def localBroadcast (p : WSProc) (exclude : String) : List String :=
  match p.userConns with
  | none => []
  | some conns =>
    conns.filter (fun cid => cid != exclude && p.clients.contains cid)

/-- `WSHandler.handleBroadcastMessage`: on receipt of the pub/sub
message, a process with no entry for the user silently discards it;
otherwise it delivers to every live registered connection — with no
exclusion of the originating connection. -/
def handleBroadcastMessage (p : WSProc) : List String :=
  match p.userConns with
  | none => []
  | some conns => conns.filter (fun cid => p.clients.contains cid)

/-- Modelled from the spec: `PubSubService.BroadcastToAllUsers` and
the subscription side are not among the sources; per §4.6 every
process subscribes to the single broadcast topic (the originating
server ID is carried for diagnostics only), so the receive leg runs
on every process — the origin included — while the local leg runs on
the origin. The full fan-out of one broadcast is the multiset of
deliveries of both legs. -/
def fanOut (origin : WSProc) (procs : List WSProc) (exclude : String) :
    List String :=
  localBroadcast origin exclude ++ (procs.map handleBroadcastMessage).flatten

/-- A process holding the originating connection C1 and two others. -/
def procW : WSProc :=
  { clients := ["C1", "C2", "C3"], userConns := some ["C1", "C2", "C3"] }

/-- A process holding no connections for the user. -/
def procEmptyW : WSProc := { clients := [], userConns := none }

/-- C8, counterexample: with C1, C2 and C3 on the originating process,
the local leg delivers to C2 and C3 only, but the pub/sub receive leg
re-delivers on the origin without exclusion, so the full fan-out hands
the event back to C1 — the claimed "never back to C1" fails. -/
theorem fanout_exclusion_counterexample :
    localBroadcast procW "C1" = ["C2", "C3"] ∧
    "C1" ∈ fanOut procW [procW] "C1" := by decide

/-- C8, amended: the local leg never delivers back to the originating
connection; a process with no registered connections for the user
discards the pub/sub message; and the two legs deliver to exactly the
live registered connections — without the originating connection on
the local leg, but with it on the receive leg. -/
theorem fanout_exclusion_amended (p : WSProc) (exclude : String) :
    exclude ∉ localBroadcast p exclude ∧
    (p.userConns = none → handleBroadcastMessage p = []) ∧
    (∀ conns, p.userConns = some conns →
      (∀ cid, cid ∈ localBroadcast p exclude ↔
        cid ∈ conns ∧ cid ≠ exclude ∧ cid ∈ p.clients) ∧
      (∀ cid, cid ∈ handleBroadcastMessage p ↔
        cid ∈ conns ∧ cid ∈ p.clients)) := by
  refine ⟨?_, ?_, ?_⟩
  · unfold localBroadcast
    rcases hc : p.userConns with _ | conns
    · exact List.not_mem_nil _
    · intro hmem
      rw [List.mem_filter] at hmem
      have hb := hmem.2
      rw [Bool.and_eq_true, bne_iff_ne] at hb
      exact hb.1 rfl
  · intro hn
    unfold handleBroadcastMessage
    rw [hn]
  · intro conns hc
    constructor
    · intro cid
      unfold localBroadcast
      rw [hc]
      simp only [List.mem_filter, Bool.and_eq_true, bne_iff_ne, List.contains,
        List.elem_iff]
    · intro cid
      unfold handleBroadcastMessage
      rw [hc]
      simp only [List.mem_filter, List.contains, List.elem_iff]

/-- Witness for the amended C8 theorem: on the concrete process the
local leg excludes C1 yet reaches C2, the empty process discards, and
the receive leg reaches C1. -/
theorem fanout_exclusion_amended_witness :
    "C1" ∉ localBroadcast procW "C1" ∧
    handleBroadcastMessage procEmptyW = [] ∧
    "C2" ∈ localBroadcast procW "C1" ∧
    "C1" ∈ handleBroadcastMessage procW := by
  refine ⟨(fanout_exclusion_amended procW "C1").1,
    (fanout_exclusion_amended procEmptyW "C1").2.1 rfl, ?_, ?_⟩
  · exact (((fanout_exclusion_amended procW "C1").2.2 ["C1", "C2", "C3"]
      rfl).1 "C2").mpr ⟨by decide, by decide, by decide⟩
  · exact (((fanout_exclusion_amended procW "C1").2.2 ["C1", "C2", "C3"]
      rfl).2 "C1").mpr ⟨by decide, by decide⟩

end Mylittleprice
